import Mathlib

/-!
# Ocean engine: scene update scheduling and camera tracking

A shallow embedding of the core of the Ocean engine (`include/Math3D.hpp`,
`include/Element.hpp`, `include/Camera.hpp`, `include/Entity.hpp`,
`include/Renderer.hpp`, `include/Scene.hpp`) together with theorems about it.

Modelling conventions

* `float` is modelled by the exact reals `ℝ`; `std::sqrt`, `std::sin`, `std::cos` are
  `Real.sqrt`, `Real.sin`, `Real.cos`, `M_PI` is `Real.pi`, and `std::atan2 y x` is the
  principal argument of the complex number `x + i y`.  `Direction::normalized` and the
  look direction of the camera are embedded a second time over IEEE 754 binary32
  (namespace `Binary32`), for the inputs on which `float` and the reals part ways.
* An `Element*` is an `Option Ptr` (`none` is `nullptr`); the objects pointed to live in
  a `Heap`, a map from addresses to `Element` values.  Every method that dereferences a
  pointer takes the heap it reads as an argument.  The objects of the heap are the
  shapes, forms and bodies, whose `update` is `Element::update`; a camera is held by
  value (by its scene) and is not an object of the heap.
* A method that mutates `*this` is a function returning the new object.
-/

namespace Ocean

noncomputable section

/-! ## Math3D.hpp -/

/-- The function `std::atan2 y x` over the reals: the angle in `(-π, π]` of the point
`(x, y)`, with `atan2 0 0 = 0`. -/
def atan2 (y x : ℝ) : ℝ := Complex.arg ⟨x, y⟩

/-- Class `Point`: a point in 3D space. -/
structure Point where
  x : ℝ
  y : ℝ
  z : ℝ

namespace Point

/-- Default constructor `Point()`: the origin. -/
def origin : Point := ⟨0, 0, 0⟩

/-- Method `Point::operator+`. -/
def add (p other : Point) : Point := ⟨p.x + other.x, p.y + other.y, p.z + other.z⟩

/-- Method `Point::operator-`. -/
def sub (p other : Point) : Point := ⟨p.x - other.x, p.y - other.y, p.z - other.z⟩

/-- Method `Point::operator*` (by a scalar). -/
def smul (p : Point) (scalar : ℝ) : Point := ⟨p.x * scalar, p.y * scalar, p.z * scalar⟩

/-- Method `Point::distanceTo`. -/
def distanceTo (p other : Point) : ℝ :=
  let dx := p.x - other.x
  let dy := p.y - other.y
  let dz := p.z - other.z
  Real.sqrt (dx * dx + dy * dy + dz * dz)

end Point

/-- Class `Direction`: a direction / vector in 3D space. -/
structure Direction where
  x : ℝ
  y : ℝ
  z : ℝ

namespace Direction

/-- Default constructor `Direction()`: the forward vector `(0, 0, 1)`. -/
def forward : Direction := ⟨0, 0, 1⟩

/-- Static method `Direction::fromAngles(pitch, yaw, roll)`; `roll` is not used. -/
def fromAngles (pitch yaw : ℝ) : Direction :=
  ⟨Real.cos pitch * Real.sin yaw, Real.sin pitch, Real.cos pitch * Real.cos yaw⟩

/-- Method `Direction::magnitude`. -/
def magnitude (d : Direction) : ℝ := Real.sqrt (d.x * d.x + d.y * d.y + d.z * d.z)

/-- Method `Direction::normalized`: the zero vector is mapped to `(0, 0, 1)`. -/
def normalized (d : Direction) : Direction :=
  let mag := d.magnitude
  if mag = 0 then ⟨0, 0, 1⟩ else ⟨d.x / mag, d.y / mag, d.z / mag⟩

/-- Method `Direction::operator+`. -/
def add (d other : Direction) : Direction := ⟨d.x + other.x, d.y + other.y, d.z + other.z⟩

/-- Method `Direction::operator*` (by a scalar). -/
def smul (d : Direction) (scalar : ℝ) : Direction := ⟨d.x * scalar, d.y * scalar, d.z * scalar⟩

/-- Method `Direction::dot`. -/
def dot (d other : Direction) : ℝ := d.x * other.x + d.y * other.y + d.z * other.z

/-- Method `Direction::cross`. -/
def cross (d other : Direction) : Direction :=
  ⟨d.y * other.z - d.z * other.y, d.z * other.x - d.x * other.z, d.x * other.y - d.y * other.x⟩

end Direction

/-- Struct `RGBA`. -/
structure RGBA where
  r : ℝ
  g : ℝ
  b : ℝ
  a : ℝ

/-- Default constructor `RGBA()`: white, alpha 1. -/
def RGBA.white : RGBA := ⟨1, 1, 1, 1⟩

/-- Struct `Rotation` (Euler angles, radians). -/
structure Rotation where
  pitch : ℝ
  yaw : ℝ
  roll : ℝ

/-- Default constructor `Rotation()`. -/
def Rotation.zero : Rotation := ⟨0, 0, 0⟩

/-! ## Element.hpp -/

/-- Class `Element`: the data members shared by every object of the world. -/
structure Element where
  position : Point
  radius : ℝ
  rotation : Rotation
  scale : Point
  velocity : ℝ
  movementDirection : Direction
  color : RGBA

namespace Element

/-- Constructor `Element(const Point &pos, float r = 1.0f)`. -/
def ctorAt (pos : Point) (r : ℝ) : Element :=
  { position := pos, radius := r, rotation := Rotation.zero, scale := ⟨1, 1, 1⟩,
    velocity := 0, movementDirection := Direction.forward, color := RGBA.white }

/-- Constructor `Element()`. -/
def ctor : Element := ctorAt Point.origin 1

/-- Method `Element::setPosition`. -/
def setPosition (e : Element) (pos : Point) : Element := { e with position := pos }

/-- Method `Element::setRadius`. -/
def setRadius (e : Element) (r : ℝ) : Element := { e with radius := r }

/-- Method `Element::setColor`. -/
def setColor (e : Element) (c : RGBA) : Element := { e with color := c }

/-- Method `Element::setRotation` (both overloads). -/
def setRotation (e : Element) (rot : Rotation) : Element := { e with rotation := rot }

/-- Method `Element::setScale` (both overloads). -/
def setScale (e : Element) (s : Point) : Element := { e with scale := s }

/-- Method `Element::setVelocity`. -/
def setVelocity (e : Element) (v : ℝ) : Element := { e with velocity := v }

/-- Method `Element::setMovementDirection`. -/
def setMovementDirection (e : Element) (dir : Direction) : Element :=
  { e with movementDirection := dir }

/-- Method `Element::applyMovement`. -/
def applyMovement (e : Element) (direction : Direction) : Element :=
  { e with movementDirection := e.movementDirection.add direction }

/-- Method `Element::update`: moves the position along the normalized movement
direction when the velocity is not zero. -/
def update (e : Element) (deltaTime : ℝ) : Element :=
  if e.velocity ≠ 0 then
    let normalizedDir := e.movementDirection.normalized
    { e with position :=
        ⟨e.position.x + normalizedDir.x * e.velocity * deltaTime,
         e.position.y + normalizedDir.y * e.velocity * deltaTime,
         e.position.z + normalizedDir.z * e.velocity * deltaTime⟩ }
  else e

end Element

/-- An address of an `Element` object. -/
abbrev Ptr := ℕ

/-- The objects that `Element*` pointers refer to, by address. -/
abbrev Heap := Ptr → Element

/-! ## Camera.hpp -/

/-- Class `Camera` (is-a `Element`). -/
structure Camera extends Element where
  followTarget : Option Ptr
  lookAtTarget : Option Ptr
  lookDirection : Direction
  upVector : Direction
  followOffset : Point
  isFollowing : Bool
  isLookingAtElement : Bool
  fov : ℝ
  nearPlane : ℝ
  farPlane : ℝ
  aspectRatio : ℝ
  orbitalYaw : ℝ
  orbitalPitch : ℝ
  orbitalDistance : ℝ

namespace Camera

/-- Constructor `Camera(const Point &pos)`: base `Element(pos, 0.0f)`. -/
def ctorAt (pos : Point) : Camera :=
  { toElement := Element.ctorAt pos 0
    followTarget := none, lookAtTarget := none
    lookDirection := ⟨0, 0, -1⟩, upVector := ⟨0, 1, 0⟩
    followOffset := ⟨0, 2, 10⟩
    isFollowing := false, isLookingAtElement := false
    fov := 45, nearPlane := 0.1, farPlane := 1000, aspectRatio := 16 / 9
    orbitalYaw := 0, orbitalPitch := 0.3, orbitalDistance := 15 }

/-- Constructor `Camera()`: base `Element()`. -/
def ctor : Camera :=
  { ctorAt Point.origin with toElement := Element.ctor }

/-- Inherited method `Element::setPosition` on a camera. -/
def setPosition (c : Camera) (pos : Point) : Camera := { c with position := pos }

/-- Method `Camera::follow`. -/
def follow (h : Heap) (c : Camera) (element : Option Ptr) : Camera :=
  let followOffset :=
    match element with
    | some e => if !c.isFollowing then c.position.sub (h e).position else c.followOffset
    | none => c.followOffset
  { c with followOffset := followOffset, followTarget := element,
           isFollowing := element.isSome }

/-- Method `Camera::setFollowOffset`. -/
def setFollowOffset (c : Camera) (offset : Point) : Camera := { c with followOffset := offset }

/-- Method `Camera::stopFollowing`. -/
def stopFollowing (c : Camera) : Camera :=
  { c with followTarget := none, isFollowing := false }

/-- Method `Camera::lookAt(const Direction &dir)`. -/
def lookAtDirection (c : Camera) (dir : Direction) : Camera :=
  { c with lookDirection := dir.normalized, isLookingAtElement := false, lookAtTarget := none }

/-- Method `Camera::lookAt(Element *element)`. -/
def lookAt (h : Heap) (c : Camera) (element : Option Ptr) : Camera :=
  let c1 : Camera := { c with lookAtTarget := element, isLookingAtElement := element.isSome }
  match element with
  | some e =>
    let targetPos := (h e).position
    let toTarget : Direction :=
      ⟨targetPos.x - c.position.x, targetPos.y - c.position.y, targetPos.z - c.position.z⟩
    { c1 with
      orbitalDistance :=
        Real.sqrt (toTarget.x * toTarget.x + toTarget.y * toTarget.y + toTarget.z * toTarget.z)
      orbitalYaw := atan2 toTarget.x toTarget.z
      orbitalPitch :=
        atan2 toTarget.y (Real.sqrt (toTarget.x * toTarget.x + toTarget.z * toTarget.z)) }
  | none => c1

/-- The constant `maxPitch = M_PI / 2.0f - 0.1f` of `Camera::rotate`. -/
def maxPitch : ℝ := Real.pi / 2 - 0.1

/-- The two clamping statements of `Camera::rotate`, in source order. -/
def clampPitch (pitch : ℝ) : ℝ :=
  let p1 := if pitch > maxPitch then maxPitch else pitch
  if p1 < -maxPitch then -maxPitch else p1

/-- The three assignments to `position.x`, `position.z`, `position.y` that `rotate`,
`zoom` and `update` share: the point at the spherical offset from the target. -/
def orbitalPosition (targetPos : Point) (yaw pitch distance : ℝ) : Point :=
  ⟨targetPos.x + distance * Real.sin yaw * Real.cos pitch,
   targetPos.y + distance * Real.sin pitch,
   targetPos.z + distance * Real.cos yaw * Real.cos pitch⟩

/-- Method `Camera::rotate`. -/
def rotate (h : Heap) (c : Camera) (deltaYaw deltaPitch : ℝ) : Camera :=
  match c.isLookingAtElement, c.lookAtTarget with
  | true, some t =>
    let orbitalYaw := c.orbitalYaw + deltaYaw
    let orbitalPitch := clampPitch (c.orbitalPitch + deltaPitch)
    let targetPos := (h t).position
    { c with
      orbitalYaw := orbitalYaw
      orbitalPitch := orbitalPitch
      position := orbitalPosition targetPos orbitalYaw orbitalPitch c.orbitalDistance }
  | _, _ =>
    let currentYaw := atan2 c.lookDirection.x c.lookDirection.z + deltaYaw
    let currentPitch := clampPitch
      (atan2 c.lookDirection.y
          (Real.sqrt (c.lookDirection.x * c.lookDirection.x
            + c.lookDirection.z * c.lookDirection.z))
        + deltaPitch)
    let d : Direction :=
      ⟨Real.sin currentYaw * Real.cos currentPitch, Real.sin currentPitch,
       Real.cos currentYaw * Real.cos currentPitch⟩
    { c with lookDirection := d.normalized }

/-- Method `Camera::zoom`. -/
def zoom (h : Heap) (c : Camera) (delta : ℝ) : Camera :=
  let d0 := c.orbitalDistance + delta
  let orbitalDistance := if d0 < 1 then 1 else d0
  match c.isLookingAtElement, c.lookAtTarget with
  | true, some t =>
    { c with
      orbitalDistance := orbitalDistance
      position := orbitalPosition (h t).position c.orbitalYaw c.orbitalPitch orbitalDistance }
  | _, _ => { c with orbitalDistance := orbitalDistance }

/-- Method `Camera::update`. -/
def update (h : Heap) (c : Camera) (_deltaTime : ℝ) : Camera :=
  match c.isLookingAtElement, c.lookAtTarget with
  | true, some t =>
    let targetPos := (h t).position
    let position := orbitalPosition targetPos c.orbitalYaw c.orbitalPitch c.orbitalDistance
    { c with
      position := position
      lookDirection :=
        (Direction.mk (targetPos.x - position.x) (targetPos.y - position.y)
          (targetPos.z - position.z)).normalized }
  | _, _ =>
    match c.isFollowing, c.followTarget with
    | true, some f => { c with position := (h f).position.add c.followOffset }
    | _, _ => c

/-- Method `Camera::setProjection`. -/
def setProjection (c : Camera) (fieldOfView aspect near far : ℝ) : Camera :=
  { c with fov := fieldOfView, aspectRatio := aspect, nearPlane := near, farPlane := far }

/-- Method `Camera::setFOV`. -/
def setFOV (c : Camera) (fieldOfView : ℝ) : Camera := { c with fov := fieldOfView }

/-- Method `Camera::setAspectRatio`. -/
def setAspectRatio (c : Camera) (aspect : ℝ) : Camera := { c with aspectRatio := aspect }

/-- Method `Camera::setUpVector`. -/
def setUpVector (c : Camera) (up : Direction) : Camera := { c with upVector := up }

/-- A method inherited from `Element`, called on a camera: it acts on the `Element`
members. -/
def onElement (c : Camera) (f : Element → Element) : Camera :=
  { c with toElement := f c.toElement }

/-- Method `Camera::calculateLookPoint`. -/
def calculateLookPoint (h : Heap) (c : Camera) : Point :=
  match c.isLookingAtElement, c.lookAtTarget with
  | true, some t => (h t).position
  | _, _ =>
    ⟨c.position.x + c.lookDirection.x, c.position.y + c.lookDirection.y,
     c.position.z + c.lookDirection.z⟩

end Camera

/-! ### Sequences of camera operations -/

namespace Camera

end Camera

/-- One call of a public operation of the camera, with its arguments and, where the
operation dereferences a target, the heap at the time of the call: the tracking
operations, then the setters of `Camera` and the setters inherited from `Element`. -/
inductive CameraOp where
  | follow (h : Heap) (element : Option Ptr)
  | stopFollowing
  | lookAtDirection (dir : Direction)
  | lookAt (h : Heap) (element : Option Ptr)
  | rotate (h : Heap) (deltaYaw deltaPitch : ℝ)
  | zoom (h : Heap) (delta : ℝ)
  | update (h : Heap) (deltaTime : ℝ)
  | setPosition (pos : Point)
  | setFollowOffset (offset : Point)
  | setProjection (fieldOfView aspect near far : ℝ)
  | setFOV (fieldOfView : ℝ)
  | setAspectRatio (aspect : ℝ)
  | setUpVector (up : Direction)
  | setRadius (r : ℝ)
  | setColor (color : RGBA)
  | setRotation (rot : Rotation)
  | setScale (scale : Point)
  | setVelocity (v : ℝ)
  | setMovementDirection (dir : Direction)
  | applyMovement (direction : Direction)

/-- The effect of one public operation on the camera. -/
def Camera.step (c : Camera) : CameraOp → Camera
  | CameraOp.follow h element => Camera.follow h c element
  | CameraOp.stopFollowing => Camera.stopFollowing c
  | CameraOp.lookAtDirection dir => Camera.lookAtDirection c dir
  | CameraOp.lookAt h element => Camera.lookAt h c element
  | CameraOp.rotate h deltaYaw deltaPitch => Camera.rotate h c deltaYaw deltaPitch
  | CameraOp.zoom h delta => Camera.zoom h c delta
  | CameraOp.update h deltaTime => Camera.update h c deltaTime
  | CameraOp.setPosition pos => Camera.setPosition c pos
  | CameraOp.setFollowOffset offset => Camera.setFollowOffset c offset
  | CameraOp.setProjection fieldOfView aspect near far =>
    Camera.setProjection c fieldOfView aspect near far
  | CameraOp.setFOV fieldOfView => Camera.setFOV c fieldOfView
  | CameraOp.setAspectRatio aspect => Camera.setAspectRatio c aspect
  | CameraOp.setUpVector up => Camera.setUpVector c up
  | CameraOp.setRadius r => c.onElement (fun e => e.setRadius r)
  | CameraOp.setColor color => c.onElement (fun e => e.setColor color)
  | CameraOp.setRotation rot => c.onElement (fun e => e.setRotation rot)
  | CameraOp.setScale scale => c.onElement (fun e => e.setScale scale)
  | CameraOp.setVelocity v => c.onElement (fun e => e.setVelocity v)
  | CameraOp.setMovementDirection dir => c.onElement (fun e => e.setMovementDirection dir)
  | CameraOp.applyMovement direction => c.onElement (fun e => e.applyMovement direction)

/-- The camera states reachable from a constructor through the public operations. -/
inductive Camera.Reachable : Camera → Prop where
  | ctor : Camera.Reachable Camera.ctor
  | ctorAt (pos : Point) : Camera.Reachable (Camera.ctorAt pos)
  | step (c : Camera) (op : CameraOp) : Camera.Reachable c → Camera.Reachable (c.step op)

/-! ## Entity.hpp -/

/-- Class `Body` (a `Form`, hence an `Element`): its movement methods act on the
`Element` members only. -/
def Body.moveForward (b : Element) (speed : ℝ) : Element :=
  let dir := Direction.fromAngles b.rotation.pitch b.rotation.yaw
  { b with position :=
      ⟨b.position.x + dir.x * speed, b.position.y + dir.y * speed,
       b.position.z + dir.z * speed⟩ }

/-- Method `Body::moveRight`. -/
def Body.moveRight (b : Element) (speed : ℝ) : Element :=
  let forward := Direction.fromAngles b.rotation.pitch b.rotation.yaw
  let right := (forward.cross ⟨0, 1, 0⟩).normalized
  { b with position :=
      ⟨b.position.x + right.x * speed, b.position.y + right.y * speed,
       b.position.z + right.z * speed⟩ }

/-- Method `Body::moveUp`. -/
def Body.moveUp (b : Element) (speed : ℝ) : Element :=
  { b with position := ⟨b.position.x, b.position.y + speed, b.position.z⟩ }

/-- Class `Entity`: the data members. -/
structure Entity where
  body : Option Ptr
  name : String

/-- Class `Player` (is-an `Entity`). -/
structure Player extends Entity where
  moveSpeed : ℝ
  turnSpeed : ℝ
  movingForward : Bool
  movingBackward : Bool
  movingLeft : Bool
  movingRight : Bool
  movingUp : Bool
  movingDown : Bool

/-- Constructor `Entity()`: no body, name "Entity". -/
def Entity.ctor : Entity := { body := none, name := "Entity" }

/-- The `Body` object that the constructor `Player()` allocates:
`new Body(Point(0, 0, 0), 0.5f)` followed by `setColor(RGBA(0.2f, 0.6f, 1.0f))`. -/
def Player.ctorBody : Element :=
  { Element.ctorAt ⟨0, 0, 0⟩ 0.5 with color := ⟨0.2, 0.6, 1.0, 1⟩ }

/-- Constructor `Player()`; `bodyAddr` is the address of the body it allocates. -/
def Player.ctor (bodyAddr : Ptr) : Player :=
  { body := some bodyAddr, name := "Player", moveSpeed := 5, turnSpeed := 2,
    movingForward := false, movingBackward := false, movingLeft := false,
    movingRight := false, movingUp := false, movingDown := false }

/-- Method `Entity::update`: does nothing. -/
def Entity.update (_e : Entity) (heap : Heap) (_deltaTime : ℝ) : Heap := heap

/-- Method `Player::update`: moves the body according to the control flags. -/
def Player.update (p : Player) (heap : Heap) (deltaTime : ℝ) : Heap :=
  let heap := Entity.update p.toEntity heap deltaTime
  match p.body with
  | none => heap
  | some b =>
    let speed := p.moveSpeed * deltaTime
    let b0 := heap b
    let b1 := if p.movingForward then Body.moveForward b0 speed else b0
    let b2 := if p.movingBackward then Body.moveForward b1 (-speed) else b1
    let b3 := if p.movingRight then Body.moveRight b2 speed else b2
    let b4 := if p.movingLeft then Body.moveRight b3 (-speed) else b3
    let b5 := if p.movingUp then Body.moveUp b4 speed else b4
    let b6 := if p.movingDown then Body.moveUp b5 (-speed) else b5
    Function.update heap b b6

/-- An object owned through a `std::unique_ptr<Entity>`: its dynamic type is `Entity`
or `Player`. -/
inductive EntityObj where
  | entity (e : Entity)
  | player (p : Player)

/-- Method `Entity::getBody` on an owned entity object. -/
def EntityObj.getBody : EntityObj → Option Ptr
  | EntityObj.entity e => e.body
  | EntityObj.player p => p.body

/-- Virtual call `entity->update(deltaTime)`. -/
def EntityObj.update : EntityObj → Heap → ℝ → Heap
  | EntityObj.entity e, heap, deltaTime => Entity.update e heap deltaTime
  | EntityObj.player p, heap, deltaTime => Player.update p heap deltaTime

/-! ## Renderer.hpp -/

/-- The OpenGL constant `GL_LIGHT0` (`GL/gl.h`). -/
def GL_LIGHT0 : ℕ := 0x4000

/-- Class `Light`. -/
structure Light where
  lightId : ℕ
  position : Point
  ambient : RGBA
  diffuse : RGBA
  specular : RGBA
  enabled : Bool
  isDirectional : Bool

/-- Constructor `Light(GLenum id)`. -/
def Light.ctor (id : ℕ) : Light :=
  { lightId := id, position := ⟨0, 10, 0⟩, ambient := ⟨0.2, 0.2, 0.2, 1⟩,
    diffuse := ⟨1, 1, 1, 1⟩, specular := ⟨1, 1, 1, 1⟩, enabled := true,
    isDirectional := false }

/-- What a frame sends to the graphics pipeline, one entry per call made by
`Renderer::render`: the calls into OpenGL and the `render()` / `apply()` calls on the
objects of the scene. -/
inductive RenderCall where
  | clear (color : RGBA)
  | perspective (fov aspect near far : ℝ)
  | view (eye center : Point) (up : Direction)
  | lighting (enabled : Bool)
  | applyLight (light : Light)
  | polygonMode (wireframe : Bool)
  | renderElement (p : Ptr) (e : Element)
  | swapBuffers

/-- Class `Renderer`: `activeCamera` is `true` when the pointer refers to the camera of
the scene and `false` when it is `nullptr`; `elements` holds the registered pointers. -/
structure Renderer where
  activeCamera : Bool
  elements : List (Option Ptr)
  lights : List Light
  clearColor : RGBA
  ambientLight : RGBA
  wireframeMode : Bool
  lightingEnabled : Bool

namespace Renderer

/-- Constructor `Renderer()`. -/
def ctor : Renderer :=
  { activeCamera := false, elements := [], lights := [Light.ctor GL_LIGHT0],
    clearColor := ⟨0, 0, 0.1, 1⟩,
    ambientLight := ⟨0.1, 0.1, 0.1, 1⟩, wireframeMode := false, lightingEnabled := true }

/-- Method `Renderer::addElement`. -/
def addElement (r : Renderer) (element : Option Ptr) : Renderer :=
  { r with elements := r.elements ++ [element] }

/-- The first loop of `Renderer::update`: `element->update(deltaTime)` for every
registered pointer that is not null, in registration order. -/
def updateElements (elements : List (Option Ptr)) (heap : Heap) (deltaTime : ℝ) : Heap :=
  elements.foldl
    (fun hp element =>
      match element with
      | some p => Function.update hp p ((hp p).update deltaTime)
      | none => hp)
    heap

/-- Method `Renderer::clearElements`. -/
def clearElements (r : Renderer) : Renderer := { r with elements := [] }

/-- Method `Renderer::setCamera`, for the camera of the scene (`true`) or `nullptr`. -/
def setCamera (r : Renderer) (cam : Bool) : Renderer := { r with activeCamera := cam }

/-- The last loop of `Renderer::render`: `element->render()` for every registered
pointer that is not null, in registration order. -/
def renderElements (elements : List (Option Ptr)) (heap : Heap) : List RenderCall :=
  elements.foldl
    (fun calls element =>
      match element with
      | some p => calls ++ [RenderCall.renderElement p (heap p)]
      | none => calls)
    []

/-- Method `Camera::apply`: the projection, then the view towards the look point. -/
def applyCamera (heap : Heap) (camera : Camera) : List RenderCall :=
  [RenderCall.perspective camera.fov camera.aspectRatio camera.nearPlane camera.farPlane,
   RenderCall.view camera.position (Camera.calculateLookPoint heap camera) camera.upVector]

/-- Method `Renderer::render`: clear, camera (or the default view), lights, polygon
mode, every element, buffer swap. -/
def render (r : Renderer) (heap : Heap) (camera : Camera) : List RenderCall :=
  [RenderCall.clear r.clearColor]
  ++ (if r.activeCamera then applyCamera heap camera
      else [RenderCall.perspective 45 1.333 0.1 1000,
            RenderCall.view ⟨0, 5, 20⟩ ⟨0, 0, 0⟩ ⟨0, 1, 0⟩])
  ++ (if r.lightingEnabled then
        RenderCall.lighting true :: r.lights.map RenderCall.applyLight
      else [RenderCall.lighting false])
  ++ [RenderCall.polygonMode r.wireframeMode]
  ++ renderElements r.elements heap
  ++ [RenderCall.swapBuffers]

/-- Method `Renderer::update`: the elements, then the active camera. -/
def update (r : Renderer) (heap : Heap) (camera : Camera) (deltaTime : ℝ) : Heap × Camera :=
  let heap1 := updateElements r.elements heap deltaTime
  (heap1, if r.activeCamera then Camera.update heap1 camera deltaTime else camera)

end Renderer

/-! ## Scene.hpp -/

/-- Class `Scene`, together with the memory `heap` that holds the `Element` objects its
pointers refer to. -/
structure Scene where
  name : String
  renderer : Renderer
  camera : Camera
  ownedElements : List Ptr
  entities : List EntityObj
  paused : Bool
  timeScale : ℝ
  heap : Heap

namespace Scene

/-- Constructor `Scene(sceneName)`, in a memory `heap`. -/
def ctor (sceneName : String) (heap : Heap) : Scene :=
  { name := sceneName, renderer := { Renderer.ctor with activeCamera := true },
    camera := Camera.ctor, ownedElements := [], entities := [], paused := false,
    timeScale := 1, heap := heap }

/-- Method `Scene::setPaused`. -/
def setPaused (s : Scene) (p : Bool) : Scene := { s with paused := p }

/-- Method `Scene::setTimeScale`. -/
def setTimeScale (s : Scene) (scale : ℝ) : Scene := { s with timeScale := scale }

/-- Method `Scene::createElement<T>(args...)`: `obj` is the `T` that the constructor
builds from the arguments and `addr` the address at which `std::make_unique` places
it; returns the new scene and the pointer handed back to the caller. -/
def createElement (s : Scene) (addr : Ptr) (obj : Element) : Scene × Option Ptr :=
  ({ s with
     heap := Function.update s.heap addr obj
     renderer := s.renderer.addElement (some addr)
     ownedElements := s.ownedElements ++ [addr] },
   some addr)

/-- Method `Scene::createEntity<T>(args...)` after the constructor of `T` has run:
`entity` is the object built; its body, if it has one, is registered with the
renderer. -/
def createEntity (s : Scene) (entity : EntityObj) : Scene :=
  let renderer :=
    match entity.getBody with
    | some b => s.renderer.addElement (some b)
    | none => s.renderer
  { s with renderer := renderer, entities := s.entities ++ [entity] }

/-- The call `createEntity<Player>()`: the constructor allocates the body at
`bodyAddr`, then the player is added to the scene. -/
def createPlayer (s : Scene) (bodyAddr : Ptr) : Scene :=
  createEntity { s with heap := Function.update s.heap bodyAddr Player.ctorBody }
    (EntityObj.player (Player.ctor bodyAddr))

/-- The call `createEntity<Entity>()`. -/
def createPlainEntity (s : Scene) : Scene :=
  createEntity s (EntityObj.entity Entity.ctor)

/-- Method `Scene::addElement`: registers an existing element, without ownership. -/
def addElement (s : Scene) (element : Option Ptr) : Scene :=
  { s with renderer := s.renderer.addElement element }

/-- Method `Scene::render`. -/
def render (s : Scene) : List RenderCall := Renderer.render s.renderer s.heap s.camera

/-- The loop `for (auto& entity : entities) entity->update(scaledDelta)`. -/
def updateEntities (entities : List EntityObj) (heap : Heap) (scaledDelta : ℝ) : Heap :=
  entities.foldl (fun hp entity => entity.update hp scaledDelta) heap

/-- Method `Scene::update`. -/
def update (s : Scene) (deltaTime : ℝ) : Scene :=
  if s.paused then s
  else
    let scaledDelta := deltaTime * s.timeScale
    let heap1 := updateEntities s.entities s.heap scaledDelta
    let r := Renderer.update s.renderer heap1 s.camera scaledDelta
    { s with heap := r.1, camera := r.2 }

/-- Successive calls `update(dt)`, one per element of `deltas`. -/
def updateSeq (s : Scene) (deltas : List ℝ) : Scene :=
  deltas.foldl update s

end Scene

/-! ## src/main.cpp -/

/-- Class `FantasyWorld` (is-a `Scene`): the demo scene. `player` is the index of the
player in the entity list of the scene. -/
structure FantasyWorld extends Scene where
  star : Option Ptr
  planet : Option Ptr
  planetRing : Option Ptr
  player : Option ℕ
  worldTime : ℝ
  starRotation : ℝ
  planetOrbitAngle : ℝ
  lastMouseX : ℤ
  lastMouseY : ℤ
  firstMouse : Bool
  mouseLocked : Bool

namespace FantasyWorld

/-- Constructor `FantasyWorld()`, in a memory `heap`. -/
def ctor (heap : Heap) : FantasyWorld :=
  { toScene := Scene.ctor "Fantasy World" heap
    star := none, planet := none, planetRing := none, player := none
    worldTime := 0, starRotation := 0, planetOrbitAngle := 0
    lastMouseX := 400, lastMouseY := 300, firstMouse := true, mouseLocked := false }

/-- Method `FantasyWorld::update`: `Scene::update`, then the clock of the world, the
rotation of the star, and the orbit and spin of the planet with its ring. -/
def update (w : FantasyWorld) (deltaTime : ℝ) : FantasyWorld :=
  let s1 := Scene.update w.toScene deltaTime
  let worldTime := w.worldTime + deltaTime
  let starRotation := w.starRotation + deltaTime * 0.1
  let heap1 :=
    match w.star with
    | some st => Function.update s1.heap st ((s1.heap st).setRotation ⟨0, starRotation, 0⟩)
    | none => s1.heap
  let planetOrbitAngle := w.planetOrbitAngle + deltaTime * 0.05
  let heap2 :=
    match w.planet, w.planetRing with
    | some pl, some ring =>
      let orbitRadius : ℝ := 50
      let newPos : Point :=
        ⟨Real.cos planetOrbitAngle * orbitRadius, 0, Real.sin planetOrbitAngle * orbitRadius⟩
      let h1 := Function.update heap1 pl ((heap1 pl).setPosition newPos)
      let h2 := Function.update h1 ring ((h1 ring).setPosition newPos)
      let rot := (h2 pl).rotation
      Function.update h2 pl
        ((h2 pl).setRotation { rot with yaw := rot.yaw + deltaTime * 0.5 })
    | _, _ => heap1
  { w with
    toScene := { s1 with heap := heap2 }
    worldTime := worldTime
    starRotation := starRotation
    planetOrbitAngle := planetOrbitAngle }

end FantasyWorld

/-- Class `Application`: the frame driver. Time points are in seconds; the window is
not part of the model. -/
structure Application where
  world : FantasyWorld
  lastTime : ℝ
  deltaTime : ℝ

/-- Method `Application::update`; `currentTime` is the reading of the clock. -/
def Application.update (app : Application) (currentTime : ℝ) : Application :=
  let measured := currentTime - app.lastTime
  let deltaTime := if measured > 0.1 then 0.1 else measured
  { world := app.world.update deltaTime, lastTime := currentTime, deltaTime := deltaTime }

/-! ## The type `float`

The definitions above compute over the reals. Where a property turns on the range of
`float` (underflow and overflow of a product), the classes are embedded a second time,
below, over a model of IEEE 754 binary32 arithmetic. -/

/-- A value of the C++ type `float` (IEEE 754 binary32): a finite number, an infinity
or NaN. The sign of a zero is not recorded. -/
inductive F32 where
  | finite (x : ℝ)
  | inf (negative : Bool)
  | nan

namespace F32

/-- The finite binary32 numbers: `m * 2^e` with `|m| < 2^24` and `-149 ≤ e ≤ 104`. -/
def IsBinary32 (x : ℝ) : Prop :=
  ∃ m e : ℤ, |m| < 2 ^ 24 ∧ -149 ≤ e ∧ e ≤ 104 ∧ x = (m : ℝ) * (2 : ℝ) ^ e

/-- Rounding to the nearest integer, ties to the even one. -/
def roundHalfEven (x : ℝ) : ℤ :=
  if x - ⌊x⌋ < 1 / 2 then ⌊x⌋
  else if 1 / 2 < x - ⌊x⌋ then ⌊x⌋ + 1
  else if Even ⌊x⌋ then ⌊x⌋
  else ⌊x⌋ + 1

/-- The exponent of the unit in the last place of the binary32 numbers around `x`:
24 significant bits, and never below the subnormal spacing `2^-149`. -/
def ulpExp (x : ℝ) : ℤ := max (Int.log 2 |x| - 23) (-149)

/-- The binary32 result of an operation whose exact result is `x`: rounding to the
nearest binary32 number, ties to even; a result that rounds to `2^128` or beyond
overflows to an infinity. -/
def rnd (x : ℝ) : F32 :=
  let y : ℝ := (roundHalfEven (x / (2 : ℝ) ^ ulpExp x) : ℝ) * (2 : ℝ) ^ ulpExp x
  if (2 : ℝ) ^ (128 : ℤ) ≤ |y| then inf (decide (x < 0)) else finite y

/-- The operator `*` on `float`. -/
def mul : F32 → F32 → F32
  | finite a, finite b => rnd (a * b)
  | finite a, inf s => if a = 0 then nan else inf (xor s (decide (a < 0)))
  | inf s, finite b => if b = 0 then nan else inf (xor s (decide (b < 0)))
  | inf s, inf t => inf (xor s t)
  | _, _ => nan

/-- The operator `+` on `float`. -/
def add : F32 → F32 → F32
  | finite a, finite b => rnd (a + b)
  | finite _, inf s => inf s
  | inf s, finite _ => inf s
  | inf s, inf t => if s = t then inf s else nan
  | _, _ => nan

/-- The operator `/` on `float`. -/
def div : F32 → F32 → F32
  | finite a, finite b =>
    if b = 0 then (if a = 0 then nan else inf (decide (a < 0))) else rnd (a / b)
  | finite _, inf _ => finite 0
  | inf s, finite b => inf (xor s (decide (b < 0)))
  | _, _ => nan

/-- The function `std::sqrt` on `float`. -/
def sqrt : F32 → F32
  | finite a => if a < 0 then nan else rnd (Real.sqrt a)
  | inf false => inf false
  | _ => nan

/-- The test `value == 0` on `float`. -/
def isZero : F32 → Bool
  | finite a => decide (a = 0)
  | _ => false

end F32

namespace Binary32

/-- Class `Point` over `float`. -/
structure Point where
  x : F32
  y : F32
  z : F32

/-- Class `Direction` over `float`. -/
structure Direction where
  x : F32
  y : F32
  z : F32

/-- Method `Direction::magnitude` over `float`: `std::sqrt(x * x + y * y + z * z)`. -/
def Direction.magnitude (d : Direction) : F32 :=
  F32.sqrt (F32.add (F32.add (F32.mul d.x d.x) (F32.mul d.y d.y)) (F32.mul d.z d.z))

/-- Method `Direction::normalized` over `float`. -/
def Direction.normalized (d : Direction) : Direction :=
  let mag := d.magnitude
  if mag.isZero then ⟨F32.finite 0, F32.finite 0, F32.finite 1⟩
  else ⟨F32.div d.x mag, F32.div d.y mag, F32.div d.z mag⟩

/-- Struct `RGBA` over `float`. -/
structure RGBA where
  r : F32
  g : F32
  b : F32
  a : F32

/-- Struct `Rotation` over `float`. -/
structure Rotation where
  pitch : F32
  yaw : F32
  roll : F32

/-- Class `Element` over `float`. -/
structure Element where
  position : Point
  radius : F32
  rotation : Rotation
  scale : Point
  velocity : F32
  movementDirection : Direction
  color : RGBA

/-- Class `Camera` over `float`. -/
structure Camera extends Element where
  followTarget : Option Ptr
  lookAtTarget : Option Ptr
  lookDirection : Direction
  upVector : Direction
  followOffset : Point
  isFollowing : Bool
  isLookingAtElement : Bool
  fov : F32
  nearPlane : F32
  farPlane : F32
  aspectRatio : F32
  orbitalYaw : F32
  orbitalPitch : F32
  orbitalDistance : F32

/-- Constructor `Camera()` over `float`; the literals `0.1f` and `0.3f` are the
binary32 numbers nearest to `0.1` and `0.3`. -/
def Camera.ctor : Camera :=
  { position := ⟨F32.finite 0, F32.finite 0, F32.finite 0⟩
    radius := F32.finite 1
    rotation := ⟨F32.finite 0, F32.finite 0, F32.finite 0⟩
    scale := ⟨F32.finite 1, F32.finite 1, F32.finite 1⟩
    velocity := F32.finite 0
    movementDirection := ⟨F32.finite 0, F32.finite 0, F32.finite 1⟩
    color := ⟨F32.finite 1, F32.finite 1, F32.finite 1, F32.finite 1⟩
    followTarget := none
    lookAtTarget := none
    lookDirection := ⟨F32.finite 0, F32.finite 0, F32.finite (-1)⟩
    upVector := ⟨F32.finite 0, F32.finite 1, F32.finite 0⟩
    followOffset := ⟨F32.finite 0, F32.finite 2, F32.finite 10⟩
    isFollowing := false
    isLookingAtElement := false
    fov := F32.finite 45
    nearPlane := F32.rnd 0.1
    farPlane := F32.finite 1000
    aspectRatio := F32.div (F32.finite 16) (F32.finite 9)
    orbitalYaw := F32.finite 0
    orbitalPitch := F32.rnd 0.3
    orbitalDistance := F32.finite 15 }

/-- Method `Camera::lookAt(const Direction &dir)` over `float`. -/
def Camera.lookAt (c : Camera) (dir : Direction) : Camera :=
  { c with lookDirection := dir.normalized, isLookingAtElement := false, lookAtTarget := none }

/-- Method `Camera::calculateLookPoint` over `float`; `targetPosition` gives the
position of the element behind a pointer. -/
def Camera.calculateLookPoint (targetPosition : Ptr → Point) (c : Camera) : Point :=
  match c.isLookingAtElement, c.lookAtTarget with
  | true, some t => targetPosition t
  | _, _ =>
    ⟨F32.add c.position.x c.lookDirection.x, F32.add c.position.y c.lookDirection.y,
     F32.add c.position.z c.lookDirection.z⟩

end Binary32

/-! ## The frame step in the words of the specification -/

/-- The unpaused frame step as the specification words it: every owned entity's update
(in creation order), then every registered drawable's update (in registration order,
null entries skipped), then the camera's update, each of them called with the same
effective delta. -/
def Scene.stepWithDelta (s : Scene) (effectiveDelta : ℝ) : Scene :=
  let heap1 := s.entities.foldl (fun hp entity => entity.update hp effectiveDelta) s.heap
  let heap2 := s.renderer.elements.foldl
    (fun hp element =>
      match element with
      | some p => Function.update hp p ((hp p).update effectiveDelta)
      | none => hp)
    heap1
  let camera :=
    if s.renderer.activeCamera then Camera.update heap2 s.camera effectiveDelta else s.camera
  { s with heap := heap2, camera := camera }

/-! ## Concrete objects used in the scenarios -/

/-- The memory of the demo scene (`src/main.cpp`) as far as the camera is concerned:
the player body, at `(30, 5, 30)` with radius 1. -/
def demoHeap : Heap := fun _ => Element.ctorAt ⟨30, 5, 30⟩ 1

/-- A memory whose elements all sit at `pos` (default radius). -/
def heapAt (pos : Point) : Heap := fun _ => Element.ctorAt pos 1

/-- An element with the zero movement direction, velocity 1, at the origin. -/
def zeroHeadingElement : Element :=
  Element.setVelocity (Element.setMovementDirection Element.ctor ⟨0, 0, 0⟩) 1

/-- A camera in orbital mode: built at the origin, then `lookAt` on a target at
`(0, 0, 10)`. -/
def orbitingCamera : Camera := Camera.lookAt (heapAt ⟨0, 0, 10⟩) Camera.ctor (some 0)

/-- A player walking forward at speed 5 whose body is the object at address 0. -/
def walkingPlayer : Player :=
  { body := some 0, name := "Player", moveSpeed := 5, turnSpeed := 2,
    movingForward := true, movingBackward := false, movingLeft := false,
    movingRight := false, movingUp := false, movingDown := false }

/-- A scene at half speed: time scale 0.5, one walking player whose body (at the origin,
registered with the renderer) is the object at address 0. -/
def halfSpeedScene : Scene :=
  { Scene.ctor "Scene" (heapAt Point.origin) with
    renderer := { Renderer.ctor with activeCamera := true, elements := [some 0] }
    entities := [EntityObj.player walkingPlayer]
    timeScale := 0.5 }

/-- The half-speed scene with a camera that follows the body of the player: the camera
was at `(0, 2, 10)` when `follow` was called on the body (at the origin). -/
def followingScene : Scene :=
  { halfSpeedScene with
    camera := Camera.follow (heapAt Point.origin) (Camera.ctorAt ⟨0, 2, 10⟩) (some 0) }

/-- The demo world with a star (address 1), a planet (address 2) and its ring (address
3), all default elements at the origin, and the scene paused. -/
def pausedFantasyWorld : FantasyWorld :=
  { FantasyWorld.ctor (heapAt Point.origin) with
    toScene := (Scene.ctor "Fantasy World" (heapAt Point.origin)).setPaused true
    star := some 1, planet := some 2, planetRing := some 3 }

theorem sin_atan2 (y x : ℝ) : Real.sin (atan2 y x) = y / Real.sqrt (x * x + y * y) := by
  unfold atan2
  rw [Complex.sin_arg, Complex.abs_apply, Complex.normSq_mk]

theorem cos_atan2 (y x : ℝ) (hne : x ≠ 0 ∨ y ≠ 0) :
    Real.cos (atan2 y x) = x / Real.sqrt (x * x + y * y) := by
  unfold atan2
  have h0 : (⟨x, y⟩ : ℂ) ≠ 0 := by
    intro h
    have h1 := congrArg Complex.re h
    have h2 := congrArg Complex.im h
    simp at h1 h2
    rcases hne with h | h
    · exact h h1
    · exact h h2
  rw [Complex.cos_arg h0, Complex.abs_apply, Complex.normSq_mk]

theorem atan2_zero_zero : atan2 0 0 = 0 := by
  unfold atan2
  have : (⟨0, 0⟩ : ℂ) = 0 := rfl
  rw [this, Complex.arg_zero]

theorem atan2_zero_of_nonneg {x : ℝ} (hx : 0 ≤ x) : atan2 0 x = 0 := by
  unfold atan2
  have : (⟨x, 0⟩ : ℂ) = ((x : ℝ) : ℂ) := rfl
  rw [this, Complex.arg_ofReal_of_nonneg hx]

/-- The orbital parameters computed from an offset `(dx, dy, dz)` by `Camera::lookAt` are
spherical coordinates of that offset. -/
theorem spherical_of_offset (dx dy dz : ℝ) :
    Real.sqrt (dx * dx + dy * dy + dz * dz) * Real.sin (atan2 dx dz)
        * Real.cos (atan2 dy (Real.sqrt (dx * dx + dz * dz))) = dx
    ∧ Real.sqrt (dx * dx + dy * dy + dz * dz)
        * Real.sin (atan2 dy (Real.sqrt (dx * dx + dz * dz))) = dy
    ∧ Real.sqrt (dx * dx + dy * dy + dz * dz) * Real.cos (atan2 dx dz)
        * Real.cos (atan2 dy (Real.sqrt (dx * dx + dz * dz))) = dz := by
  have hh0 : 0 ≤ dx * dx + dz * dz := add_nonneg (mul_self_nonneg _) (mul_self_nonneg _)
  have hr0 : 0 ≤ dx * dx + dy * dy + dz * dz :=
    add_nonneg (add_nonneg (mul_self_nonneg _) (mul_self_nonneg _)) (mul_self_nonneg _)
  set hd := Real.sqrt (dx * dx + dz * dz) with hhd
  set r := Real.sqrt (dx * dx + dy * dy + dz * dz) with hr
  have hhsq : hd * hd = dx * dx + dz * dz := Real.mul_self_sqrt hh0
  have hrsq : r * r = dx * dx + dy * dy + dz * dz := Real.mul_self_sqrt hr0
  have hrr : Real.sqrt (hd * hd + dy * dy) = r := by
    rw [hr, hhsq]; congr 1; ring
  have hsy : Real.sin (atan2 dx dz) = dx / hd := by
    rw [sin_atan2, hhd]; congr 2; ring
  have hsp : Real.sin (atan2 dy hd) = dy / r := by
    rw [sin_atan2, hrr]
  by_cases hr0' : r = 0
  · -- the offset is zero
    have hsum : dx * dx + dy * dy + dz * dz = 0 := by rw [← hrsq, hr0']; ring
    have hx : dx = 0 := by nlinarith [mul_self_nonneg dx, mul_self_nonneg dy, mul_self_nonneg dz]
    have hy : dy = 0 := by nlinarith [mul_self_nonneg dx, mul_self_nonneg dy, mul_self_nonneg dz]
    have hz : dz = 0 := by nlinarith [mul_self_nonneg dx, mul_self_nonneg dy, mul_self_nonneg dz]
    rw [hr0', hx, hy, hz]
    simp
  · have hcp : Real.cos (atan2 dy hd) = hd / r := by
      by_cases hd0 : hd = 0
      · have hy : dy ≠ 0 := by
          intro hy
          apply hr0'
          rw [← hrr, hd0, hy]; simp
        rw [cos_atan2 dy hd (Or.inr hy), hrr]
      · rw [cos_atan2 dy hd (Or.inl hd0), hrr]
    refine ⟨?_, ?_, ?_⟩
    · rw [hsy, hcp]
      by_cases hd0 : hd = 0
      · have hsum : dx * dx + dz * dz = 0 := by rw [← hhsq, hd0]; ring
        have hx : dx = 0 := by nlinarith [mul_self_nonneg dx, mul_self_nonneg dz]
        rw [hd0, hx]; simp
      · field_simp
    · rw [hsp]; field_simp
    · rw [hcp]
      by_cases hd0 : hd = 0
      · have hsum : dx * dx + dz * dz = 0 := by rw [← hhsq, hd0]; ring
        have hz : dz = 0 := by nlinarith [mul_self_nonneg dx, mul_self_nonneg dz]
        rw [hd0, hz]; simp
      · rw [cos_atan2 dx dz (by
          by_contra hcon
          push_neg at hcon
          apply hd0
          rw [hhd, hcon.1, hcon.2]; simp)]
        have : Real.sqrt (dz * dz + dx * dx) = hd := by rw [hhd]; congr 1; ring
        rw [this]; field_simp

namespace Camera

theorem lookAt_update_position (h : Heap) (c : Camera) (e : Ptr) (dt : ℝ) :
    (update h (lookAt h c (some e)) dt).position =
      ⟨(h e).position.x + ((h e).position.x - c.position.x),
       (h e).position.y + ((h e).position.y - c.position.y),
       (h e).position.z + ((h e).position.z - c.position.z)⟩ := by
  obtain ⟨hx, hy, hz⟩ := spherical_of_offset ((h e).position.x - c.position.x)
    ((h e).position.y - c.position.y) ((h e).position.z - c.position.z)
  simp only [update, lookAt, Option.isSome_some, orbitalPosition]
  rw [hx, hy, hz]

theorem lookAt_update_lookDirection (h : Heap) (c : Camera) (e : Ptr) (dt : ℝ) :
    (update h (lookAt h c (some e)) dt).lookDirection =
      (Direction.mk (c.position.x - (h e).position.x) (c.position.y - (h e).position.y)
        (c.position.z - (h e).position.z)).normalized := by
  obtain ⟨hx, hy, hz⟩ := spherical_of_offset ((h e).position.x - c.position.x)
    ((h e).position.y - c.position.y) ((h e).position.z - c.position.z)
  simp only [update, lookAt, Option.isSome_some, orbitalPosition]
  rw [hx, hy, hz]
  congr 2 <;> ring

end Camera

/-! ## Camera: `lookAt(element)` followed by `update` -/

/-- C1 (code defect): in the demo configuration (camera at `(30, 10, 45)`, target at
`(30, 5, 30)`, no prior look-at target) `lookAt(element)` followed by `update` does not
leave the camera where it was: it ends at `(30, 0, 15)`, the mirror image of its old
position through the target. -/
theorem lookAt_then_update_moves_camera :
    (Camera.update demoHeap (Camera.lookAt demoHeap (Camera.ctorAt ⟨30, 10, 45⟩) (some 0))
        0).position = ⟨30, 0, 15⟩
    ∧ (Camera.update demoHeap (Camera.lookAt demoHeap (Camera.ctorAt ⟨30, 10, 45⟩) (some 0))
        0).position ≠ (Camera.ctorAt ⟨30, 10, 45⟩).position := by
  have h := Camera.lookAt_update_position demoHeap (Camera.ctorAt ⟨30, 10, 45⟩) 0 0
  constructor
  · rw [h]
    simp only [demoHeap, Element.ctorAt, Camera.ctorAt]
    norm_num
  · rw [h]
    simp only [demoHeap, Element.ctorAt, Camera.ctorAt]
    intro hc
    have := congrArg Point.y hc
    norm_num at this

/-- C2 (code defect): a camera at the origin calls `lookAt` on a target at `(0, 0, 10)`.
The orbital state becomes yaw 0, pitch 0, distance 10 as the scenario says, but the
following `update` puts the camera at `(0, 0, 20)` looking along `(0, 0, -1)`, not at the
origin looking along `(0, 0, 1)`. -/
theorem lookAt_scenario_target_ahead (dt : ℝ) :
    (Camera.lookAt (heapAt ⟨0, 0, 10⟩) Camera.ctor (some 0)).orbitalYaw = 0
    ∧ (Camera.lookAt (heapAt ⟨0, 0, 10⟩) Camera.ctor (some 0)).orbitalPitch = 0
    ∧ (Camera.lookAt (heapAt ⟨0, 0, 10⟩) Camera.ctor (some 0)).orbitalDistance = 10
    ∧ (Camera.update (heapAt ⟨0, 0, 10⟩)
        (Camera.lookAt (heapAt ⟨0, 0, 10⟩) Camera.ctor (some 0)) dt).position = ⟨0, 0, 20⟩
    ∧ (Camera.update (heapAt ⟨0, 0, 10⟩)
        (Camera.lookAt (heapAt ⟨0, 0, 10⟩) Camera.ctor (some 0)) dt).lookDirection
        = ⟨0, 0, -1⟩ := by
  have hs : Real.sqrt 100 = 10 := by
    rw [show (100 : ℝ) = 10 * 10 by norm_num]
    exact Real.sqrt_mul_self (by norm_num)
  refine ⟨?_, ?_, ?_, ?_, ?_⟩
  · simp only [Camera.lookAt, heapAt, Element.ctorAt, Camera.ctor, Element.ctor,
      Camera.ctorAt, Point.origin]
    norm_num
    exact atan2_zero_of_nonneg (by norm_num)
  · simp only [Camera.lookAt, heapAt, Element.ctorAt, Camera.ctor, Element.ctor,
      Camera.ctorAt, Point.origin]
    norm_num
    exact atan2_zero_of_nonneg (by norm_num)
  · simp only [Camera.lookAt, heapAt, Element.ctorAt, Camera.ctor, Element.ctor,
      Camera.ctorAt, Point.origin]
    norm_num
    exact hs
  · rw [Camera.lookAt_update_position]
    simp only [heapAt, Element.ctorAt, Camera.ctor, Element.ctor, Camera.ctorAt, Point.origin]
    norm_num
  · rw [Camera.lookAt_update_lookDirection]
    simp only [heapAt, Element.ctorAt, Camera.ctor, Element.ctor, Camera.ctorAt, Point.origin,
      Direction.normalized, Direction.magnitude]
    norm_num
    rw [hs]
    norm_num

/-! ## Element: the zero heading -/

theorem Direction.normalized_zero : Direction.normalized ⟨0, 0, 0⟩ = ⟨0, 0, 1⟩ := by
  simp [Direction.normalized, Direction.magnitude]

/-- C3 (counterexample): an element at the origin with the zero movement direction and
velocity 1 is moved by `update(1)` to `(0, 0, 1)`; its position does change. -/
theorem zero_heading_moves_element :
    zeroHeadingElement.movementDirection = ⟨0, 0, 0⟩
    ∧ (zeroHeadingElement.update 1).position = ⟨0, 0, 1⟩
    ∧ (zeroHeadingElement.update 1).position ≠ zeroHeadingElement.position := by
  have hpos : (zeroHeadingElement.update 1).position = ⟨0, 0, 1⟩ := by
    simp [zeroHeadingElement, Element.update, Element.setVelocity,
      Element.setMovementDirection, Element.ctor, Element.ctorAt, Point.origin,
      Direction.normalized_zero]
  refine ⟨rfl, hpos, ?_⟩
  rw [hpos]
  intro hc
  have hz := congrArg Point.z hc
  simp [zeroHeadingElement, Element.setVelocity, Element.setMovementDirection, Element.ctor,
    Element.ctorAt, Point.origin] at hz

/-- C3 (amended): for an element whose movement direction is the zero vector,
`update(deltaTime)` keeps `x` and `y` and adds `velocity * deltaTime` to `z`, because the
zero heading is normalized to the forward vector `(0, 0, 1)`; hence the position is
unchanged exactly when `velocity * deltaTime = 0`. -/
theorem update_zero_heading (e : Element) (deltaTime : ℝ)
    (h0 : e.movementDirection = ⟨0, 0, 0⟩) :
    (e.update deltaTime).position
        = ⟨e.position.x, e.position.y, e.position.z + e.velocity * deltaTime⟩
    ∧ ((e.update deltaTime).position = e.position ↔ e.velocity * deltaTime = 0) := by
  have hpos : (e.update deltaTime).position
      = ⟨e.position.x, e.position.y, e.position.z + e.velocity * deltaTime⟩ := by
    unfold Element.update
    by_cases hv : e.velocity = 0
    · simp [hv]
    · simp [hv, h0, Direction.normalized_zero]
  refine ⟨hpos, ?_⟩
  rw [hpos]
  constructor
  · intro hc
    have hz := congrArg Point.z hc
    simp only at hz
    linarith
  · intro hc
    rw [hc, add_zero]

/-- Witness for `update_zero_heading`: the element of the counterexample, for half a
time unit, ends at `(0, 0, 1/2)`. -/
theorem update_zero_heading_witness :
    zeroHeadingElement.movementDirection = ⟨0, 0, 0⟩
    ∧ (zeroHeadingElement.update (1 / 2)).position
        = ⟨zeroHeadingElement.position.x, zeroHeadingElement.position.y,
           zeroHeadingElement.position.z + zeroHeadingElement.velocity * (1 / 2)⟩ :=
  ⟨rfl, (update_zero_heading zeroHeadingElement (1 / 2) rfl).1⟩

/-! ## Camera: the pitch clamp of `rotate` -/

/-- C8: for a camera at `p` that is not following and has no active look-at target,
`follow(target)` with the target at `t` captures `followOffset = p - t`; if the target
then sits at any position `t2` (heap `h2`) when `update` is called, the camera ends at
`t2 + (p - t)`. -/
theorem follow_then_update (h h2 : Heap) (c : Camera) (target : Ptr) (dt : ℝ)
    (hf : c.isFollowing = false)
    (hl : c.isLookingAtElement = false ∨ c.lookAtTarget = none) :
    (Camera.follow h c (some target)).followOffset = c.position.sub (h target).position
    ∧ (Camera.update h2 (Camera.follow h c (some target)) dt).position
        = (h2 target).position.add (c.position.sub (h target).position) := by
  have ho : (Camera.follow h c (some target)).followOffset
      = c.position.sub (h target).position := by
    simp [Camera.follow, hf]
  refine ⟨ho, ?_⟩
  rcases hl with hl | hl
  · simp [Camera.update, Camera.follow, hf, hl]
  · cases hb : c.isLookingAtElement <;> simp [Camera.update, Camera.follow, hf, hl, hb]

/-- Witness for `follow_then_update` (the scenario of the specification): a camera at
`(0, 0, 0)` follows a target at `(0, 2, 0)`, capturing the offset `(0, -2, 0)`; with the
target moved to `(5, 2, 0)`, `update` puts the camera at `(5, 0, 0)`. -/
theorem follow_then_update_witness :
    Camera.ctor.isFollowing = false
    ∧ (Camera.ctor.isLookingAtElement = false ∨ Camera.ctor.lookAtTarget = none)
    ∧ (Camera.follow (heapAt ⟨0, 2, 0⟩) Camera.ctor (some 0)).followOffset = ⟨0, -2, 0⟩
    ∧ (Camera.update (heapAt ⟨5, 2, 0⟩) (Camera.follow (heapAt ⟨0, 2, 0⟩) Camera.ctor (some 0))
        0).position = ⟨5, 0, 0⟩ := by
  have hw := follow_then_update (heapAt ⟨0, 2, 0⟩) (heapAt ⟨5, 2, 0⟩) Camera.ctor 0 0 rfl
    (Or.inl rfl)
  refine ⟨rfl, Or.inl rfl, ?_, ?_⟩
  · rw [hw.1]
    simp [heapAt, Element.ctorAt, Camera.ctor, Element.ctor, Camera.ctorAt, Point.origin,
      Point.sub]
  · rw [hw.2]
    simp [heapAt, Element.ctorAt, Camera.ctor, Element.ctor, Camera.ctorAt, Point.origin,
      Point.sub, Point.add]

/-! ## Scene: pause and time scale -/

theorem Scene.update_paused (s : Scene) (dt : ℝ) (hp : s.paused = true) : s.update dt = s := by
  unfold Scene.update
  rw [if_pos hp]

theorem Scene.updateSeq_paused (deltas : List ℝ) (s : Scene) (hp : s.paused = true) :
    s.updateSeq deltas = s := by
  induction deltas with
  | nil => rfl
  | cons d rest ih =>
    show Scene.updateSeq (s.update d) rest = s
    rw [Scene.update_paused s d hp]
    exact ih

/-- C9: once `setPaused(true)` has been called, one `update(dt)`, and any sequence of
`update` calls, leaves the whole scene state unchanged (in particular the memory holding
every body and drawable, and the camera); and after `setPaused(false)` the next
`update(dt)` gives exactly the state it gives when the paused calls are left out. -/
theorem paused_update_is_identity (s : Scene) (deltas : List ℝ) (dt : ℝ) :
    (s.setPaused true).update dt = s.setPaused true
    ∧ (s.setPaused true).updateSeq deltas = s.setPaused true
    ∧ ((s.setPaused true).updateSeq deltas).heap = s.heap
    ∧ ((s.setPaused true).updateSeq deltas).camera = s.camera
    ∧ (((s.setPaused true).updateSeq deltas).setPaused false).update dt
        = ((s.setPaused true).setPaused false).update dt := by
  have hseq : (s.setPaused true).updateSeq deltas = s.setPaused true :=
    Scene.updateSeq_paused deltas (s.setPaused true) rfl
  refine ⟨Scene.update_paused _ dt rfl, hseq, ?_, ?_, ?_⟩
  · rw [hseq]; rfl
  · rw [hseq]; rfl
  · rw [hseq]

theorem Scene.update_unpaused (s : Scene) (dt : ℝ) (hp : s.paused = false) :
    s.update dt = s.stepWithDelta (dt * s.timeScale) := by
  unfold Scene.update Scene.stepWithDelta
  simp only [hp, Bool.false_eq_true, if_false]
  rfl

/-- C10: an unpaused `Scene::update(dt)` with time scale `s` hands the effective delta
`dt * s` to every entity update, every drawable update and the camera update: it is the
frame step of the specification run with delta `dt * s`, and it equals
`Scene::update(dt * s)` run with time scale 1 (the time scale field apart); with
time scale 0.5 and `dt = 1` the delta handed out is 0.5. -/
theorem update_scales_delta (s : Scene) (dt : ℝ) (hp : s.paused = false) :
    s.update dt = s.stepWithDelta (dt * s.timeScale)
    ∧ s.update dt = ((s.setTimeScale 1).update (dt * s.timeScale)).setTimeScale s.timeScale
    ∧ (s.timeScale = 0.5 → s.update 1 = s.stepWithDelta 0.5) := by
  refine ⟨Scene.update_unpaused s dt hp, ?_, ?_⟩
  · rw [Scene.update_unpaused s dt hp, Scene.update_unpaused (s.setTimeScale 1) _ hp]
    simp only [Scene.setTimeScale, Scene.stepWithDelta, mul_one]
  · intro hs
    rw [Scene.update_unpaused s 1 hp, hs, one_mul]

/-- Witness for `update_scales_delta`: in the half-speed scene (time scale 0.5) the
player walks at speed 5, and one `update(1)` moves its body from the origin to
`(0, 0, 5/2)`: the player has observed the delta 0.5. -/
theorem update_scales_delta_witness :
    halfSpeedScene.paused = false
    ∧ halfSpeedScene.timeScale = 0.5
    ∧ ((halfSpeedScene.update 1).heap 0).position = ⟨0, 0, 5 / 2⟩ := by
  refine ⟨rfl, rfl, ?_⟩
  rw [(update_scales_delta halfSpeedScene 1 rfl).2.2 rfl]
  simp [Scene.stepWithDelta, halfSpeedScene, Scene.ctor, walkingPlayer, EntityObj.update,
    Player.update, Entity.update, Body.moveForward, Direction.fromAngles, heapAt,
    Element.ctorAt, Element.update, Point.origin, Rotation.zero]
  norm_num

/-! ## Scene: the order of one frame -/

theorem Camera.update_follow (h : Heap) (c : Camera) (b : Ptr) (dt : ℝ)
    (hf : c.isFollowing = true) (ht : c.followTarget = some b)
    (hl : c.isLookingAtElement = false ∨ c.lookAtTarget = none) :
    Camera.update h c dt = { c with position := (h b).position.add c.followOffset } := by
  rcases hl with hl | hl
  · simp [Camera.update, hf, ht, hl]
  · cases hb : c.isLookingAtElement <;> simp [Camera.update, hf, ht, hl, hb]

/-- C11: an unpaused `Scene::update(dt)` runs the entity updates (first entity first),
then the updates of the registered drawables (first registered first), then, when the
renderer has the active camera, the camera update, which reads the memory left by the
two loops; hence a camera that follows a target `b` (such as the body of an entity)
and has no active look-at target ends at the position that `b` has after that same
update plus the follow offset. -/
theorem update_order_no_lag (s : Scene) (dt : ℝ) (b : Ptr)
    (hp : s.paused = false) (hcam : s.renderer.activeCamera = true)
    (hf : s.camera.isFollowing = true) (ht : s.camera.followTarget = some b)
    (hl : s.camera.isLookingAtElement = false ∨ s.camera.lookAtTarget = none) :
    (s.update dt).heap
        = Renderer.updateElements s.renderer.elements
            (Scene.updateEntities s.entities s.heap (dt * s.timeScale)) (dt * s.timeScale)
    ∧ (s.update dt).camera = Camera.update (s.update dt).heap s.camera (dt * s.timeScale)
    ∧ (∀ (e : EntityObj) (es : List EntityObj) (h : Heap) (d : ℝ),
        Scene.updateEntities (e :: es) h d = Scene.updateEntities es (e.update h d) d)
    ∧ (∀ (p : Ptr) (ps : List (Option Ptr)) (h : Heap) (d : ℝ),
        Renderer.updateElements (some p :: ps) h d
          = Renderer.updateElements ps (Function.update h p ((h p).update d)) d)
    ∧ (s.update dt).camera.position
        = ((s.update dt).heap b).position.add s.camera.followOffset := by
  have hu : s.update dt = s.stepWithDelta (dt * s.timeScale) := Scene.update_unpaused s dt hp
  have hheap : (s.update dt).heap
      = Renderer.updateElements s.renderer.elements
          (Scene.updateEntities s.entities s.heap (dt * s.timeScale)) (dt * s.timeScale) := by
    rw [hu]; rfl
  have hcamera : (s.update dt).camera
      = Camera.update (s.update dt).heap s.camera (dt * s.timeScale) := by
    rw [hu]
    simp only [Scene.stepWithDelta, hcam, if_true]
  refine ⟨hheap, hcamera, fun _ _ _ _ => rfl, fun _ _ _ _ => rfl, ?_⟩
  rw [hcamera, Camera.update_follow _ s.camera b _ hf ht hl]

/-- Witness for `update_order_no_lag`: in the half-speed scene (player walking at
speed 5, time scale 0.5) with the camera following the body at offset `(0, 2, 10)`,
one `update(1)` moves the body to `(0, 0, 5/2)` and the camera to `(0, 2, 25/2)`. -/
theorem update_order_no_lag_witness :
    followingScene.paused = false
    ∧ followingScene.renderer.activeCamera = true
    ∧ followingScene.camera.isFollowing = true
    ∧ followingScene.camera.followTarget = some 0
    ∧ (followingScene.camera.isLookingAtElement = false
        ∨ followingScene.camera.lookAtTarget = none)
    ∧ ((followingScene.update 1).heap 0).position = ⟨0, 0, 5 / 2⟩
    ∧ (followingScene.update 1).camera.position = ⟨0, 2, 25 / 2⟩ := by
  have hw := update_order_no_lag followingScene 1 0 rfl rfl rfl rfl (Or.inl rfl)
  have hbody : ((followingScene.update 1).heap 0).position = ⟨0, 0, 5 / 2⟩ := by
    rw [hw.1]
    simp [Renderer.updateElements, Scene.updateEntities, followingScene, halfSpeedScene,
      Scene.ctor, walkingPlayer, EntityObj.update, Player.update, Entity.update,
      Body.moveForward, Direction.fromAngles, heapAt, Element.ctorAt, Element.update,
      Point.origin, Rotation.zero]
    norm_num
  refine ⟨rfl, rfl, rfl, rfl, Or.inl rfl, hbody, ?_⟩
  rw [hw.2.2.2.2, hbody]
  simp [followingScene, Camera.follow, Camera.ctorAt, Element.ctorAt, heapAt, Point.origin,
    Point.add, Point.sub]
  norm_num

/-! ## Camera: orbit and follow together -/

theorem Camera.update_orbit (h : Heap) (c : Camera) (t : Ptr) (dt : ℝ)
    (hl : c.isLookingAtElement = true) (ht : c.lookAtTarget = some t) :
    Camera.update h c dt =
      { c with
        position :=
          Camera.orbitalPosition (h t).position c.orbitalYaw c.orbitalPitch c.orbitalDistance
        lookDirection :=
          (Direction.mk
            ((h t).position.x - (Camera.orbitalPosition (h t).position c.orbitalYaw
              c.orbitalPitch c.orbitalDistance).x)
            ((h t).position.y - (Camera.orbitalPosition (h t).position c.orbitalYaw
              c.orbitalPitch c.orbitalDistance).y)
            ((h t).position.z - (Camera.orbitalPosition (h t).position c.orbitalYaw
              c.orbitalPitch c.orbitalDistance).z)).normalized } := by
  unfold Camera.update
  rw [hl, ht]

/-- C12: when both a follow target and a look-at target are set, `update` puts the
camera at the look-at target's position plus
`orbitalDistance * (sin yaw * cos pitch, sin pitch, cos yaw * cos pitch)`; position and
look direction are the same for every follow offset and every memory in which the
look-at target has the same position, in particular when only the follow target
(another object) has moved. -/
theorem update_orbit_ignores_follow (h : Heap) (c : Camera) (t f : Ptr) (dt : ℝ)
    (hl : c.isLookingAtElement = true) (ht : c.lookAtTarget = some t)
    (_hf : c.isFollowing = true) (_hft : c.followTarget = some f) :
    (Camera.update h c dt).position
        = ⟨(h t).position.x + c.orbitalDistance * Real.sin c.orbitalYaw * Real.cos c.orbitalPitch,
           (h t).position.y + c.orbitalDistance * Real.sin c.orbitalPitch,
           (h t).position.z + c.orbitalDistance * Real.cos c.orbitalYaw * Real.cos c.orbitalPitch⟩
    ∧ (∀ (h2 : Heap) (offset2 : Point), (h2 t).position = (h t).position →
        (Camera.update h2 { c with followOffset := offset2 } dt).position
            = (Camera.update h c dt).position
        ∧ (Camera.update h2 { c with followOffset := offset2 } dt).lookDirection
            = (Camera.update h c dt).lookDirection)
    ∧ (f ≠ t → ∀ (moved : Element) (offset2 : Point),
        (Camera.update (Function.update h f moved) { c with followOffset := offset2 } dt).position
            = (Camera.update h c dt).position
        ∧ (Camera.update (Function.update h f moved)
              { c with followOffset := offset2 } dt).lookDirection
            = (Camera.update h c dt).lookDirection) := by
  have hgen : ∀ (h2 : Heap) (offset2 : Point), (h2 t).position = (h t).position →
      (Camera.update h2 { c with followOffset := offset2 } dt).position
          = (Camera.update h c dt).position
      ∧ (Camera.update h2 { c with followOffset := offset2 } dt).lookDirection
          = (Camera.update h c dt).lookDirection := by
    intro h2 offset2 hpos
    rw [Camera.update_orbit h c t dt hl ht,
      Camera.update_orbit h2 { c with followOffset := offset2 } t dt hl ht]
    simp [hpos]
  refine ⟨?_, hgen, ?_⟩
  · rw [Camera.update_orbit h c t dt hl ht]
    rfl
  · intro hne moved offset2
    apply hgen
    rw [Function.update_noteq (Ne.symm hne)]

/-- Witness for `update_orbit_ignores_follow`: the orbiting camera (target at
`(0, 0, 10)`, distance 10, yaw 0, pitch 0), told to follow the same object as well,
is put at `(0, 0, 20)` by `update`. -/
theorem update_orbit_ignores_follow_witness :
    (Camera.follow (heapAt ⟨0, 0, 10⟩) orbitingCamera (some 0)).isLookingAtElement = true
    ∧ (Camera.follow (heapAt ⟨0, 0, 10⟩) orbitingCamera (some 0)).lookAtTarget = some 0
    ∧ (Camera.follow (heapAt ⟨0, 0, 10⟩) orbitingCamera (some 0)).isFollowing = true
    ∧ (Camera.follow (heapAt ⟨0, 0, 10⟩) orbitingCamera (some 0)).followTarget = some 0
    ∧ (Camera.update (heapAt ⟨0, 0, 10⟩)
        (Camera.follow (heapAt ⟨0, 0, 10⟩) orbitingCamera (some 0)) 0).position
        = ⟨0, 0, 20⟩ := by
  refine ⟨rfl, rfl, rfl, rfl, ?_⟩
  rw [(update_orbit_ignores_follow (heapAt ⟨0, 0, 10⟩)
    (Camera.follow (heapAt ⟨0, 0, 10⟩) orbitingCamera (some 0)) 0 0 0 rfl rfl rfl rfl).1]
  have hs : Real.sqrt 100 = 10 := by
    rw [show (100 : ℝ) = 10 * 10 by norm_num]
    exact Real.sqrt_mul_self (by norm_num)
  have hy : atan2 0 10 = 0 := atan2_zero_of_nonneg (by norm_num)
  simp [Camera.follow, orbitingCamera, Camera.lookAt, heapAt, Element.ctorAt, Camera.ctor,
    Element.ctor, Camera.ctorAt, Point.origin, hs, hy]
  norm_num

/-! ## Camera: the orbit faces its target -/

theorem orbit_offset_sq (d yaw pitch : ℝ) :
    (d * Real.sin yaw * Real.cos pitch) * (d * Real.sin yaw * Real.cos pitch)
      + (d * Real.sin pitch) * (d * Real.sin pitch)
      + (d * Real.cos yaw * Real.cos pitch) * (d * Real.cos yaw * Real.cos pitch)
      = d * d := by
  have h1 := Real.sin_sq_add_cos_sq yaw
  have h2 := Real.sin_sq_add_cos_sq pitch
  linear_combination (d ^ 2 * Real.cos pitch ^ 2) * h1 + d ^ 2 * h2

/-- C13: with an active look-at target at `t` (wherever the target is now) and an
orbital distance `d > 0`, after `update` the camera is at Euclidean distance `d` from
`t`, the look direction has length 1, and `position + d * lookDirection = t`: the look
direction is the unit vector from the camera towards the target. -/
theorem update_orbit_faces_target (h : Heap) (c : Camera) (t : Ptr) (dt : ℝ)
    (hl : c.isLookingAtElement = true) (ht : c.lookAtTarget = some t)
    (hd : 0 < c.orbitalDistance) :
    (Camera.update h c dt).position.distanceTo (h t).position = c.orbitalDistance
    ∧ (Camera.update h c dt).lookDirection.magnitude = 1
    ∧ (Camera.update h c dt).position.x
        + c.orbitalDistance * (Camera.update h c dt).lookDirection.x = (h t).position.x
    ∧ (Camera.update h c dt).position.y
        + c.orbitalDistance * (Camera.update h c dt).lookDirection.y = (h t).position.y
    ∧ (Camera.update h c dt).position.z
        + c.orbitalDistance * (Camera.update h c dt).lookDirection.z = (h t).position.z := by
  have hne : c.orbitalDistance ≠ 0 := ne_of_gt hd
  have hsq := orbit_offset_sq c.orbitalDistance c.orbitalYaw c.orbitalPitch
  have h1 := Real.sin_sq_add_cos_sq c.orbitalYaw
  have h2 := Real.sin_sq_add_cos_sq c.orbitalPitch
  -- the vector from the new position to the target has length `d`
  have hmag : (Direction.mk
      ((h t).position.x - (Camera.orbitalPosition (h t).position c.orbitalYaw
        c.orbitalPitch c.orbitalDistance).x)
      ((h t).position.y - (Camera.orbitalPosition (h t).position c.orbitalYaw
        c.orbitalPitch c.orbitalDistance).y)
      ((h t).position.z - (Camera.orbitalPosition (h t).position c.orbitalYaw
        c.orbitalPitch c.orbitalDistance).z)).magnitude = c.orbitalDistance := by
    simp only [Direction.magnitude, Camera.orbitalPosition]
    rw [Real.sqrt_eq_iff_mul_self_eq_of_pos hd]
    linear_combination (-1 : ℝ) * hsq
  -- its normalized components
  have hx : ((h t).position.x
      - ((h t).position.x
          + c.orbitalDistance * Real.sin c.orbitalYaw * Real.cos c.orbitalPitch))
        / c.orbitalDistance = -(Real.sin c.orbitalYaw * Real.cos c.orbitalPitch) := by
    field_simp
    ring
  have hy : ((h t).position.y
      - ((h t).position.y + c.orbitalDistance * Real.sin c.orbitalPitch))
        / c.orbitalDistance = -Real.sin c.orbitalPitch := by
    field_simp
    ring
  have hz : ((h t).position.z
      - ((h t).position.z
          + c.orbitalDistance * Real.cos c.orbitalYaw * Real.cos c.orbitalPitch))
        / c.orbitalDistance = -(Real.cos c.orbitalYaw * Real.cos c.orbitalPitch) := by
    field_simp
    ring
  rw [Camera.update_orbit h c t dt hl ht]
  simp only [Direction.normalized, hmag, hne, if_false]
  simp only [Camera.orbitalPosition, hx, hy, hz]
  refine ⟨?_, ?_, ?_, ?_, ?_⟩
  · simp only [Point.distanceTo]
    rw [Real.sqrt_eq_iff_mul_self_eq_of_pos hd]
    linear_combination (-1 : ℝ) * hsq
  · simp only [Direction.magnitude]
    rw [Real.sqrt_eq_iff_mul_self_eq_of_pos one_pos]
    linear_combination (-(Real.cos c.orbitalPitch ^ 2)) * h1 - h2
  · ring
  · ring
  · ring

theorem orbitingCamera_orbitalDistance : orbitingCamera.orbitalDistance = 10 := by
  simp only [orbitingCamera, Camera.lookAt, heapAt, Element.ctorAt, Camera.ctor, Element.ctor,
    Camera.ctorAt, Point.origin]
  rw [Real.sqrt_eq_iff_mul_self_eq_of_pos (by norm_num)]
  norm_num

/-- Witness for `update_orbit_faces_target`: the orbiting camera (orbital distance 10)
whose target has meanwhile moved to `(5, 5, 5)` is, after `update`, at distance 10 from
the target and looks at it along a unit vector. -/
theorem update_orbit_faces_target_witness :
    orbitingCamera.isLookingAtElement = true
    ∧ orbitingCamera.lookAtTarget = some 0
    ∧ 0 < orbitingCamera.orbitalDistance
    ∧ (Camera.update (heapAt ⟨5, 5, 5⟩) orbitingCamera 0).position.distanceTo
        ((heapAt ⟨5, 5, 5⟩) 0).position = orbitingCamera.orbitalDistance
    ∧ (Camera.update (heapAt ⟨5, 5, 5⟩) orbitingCamera 0).lookDirection.magnitude = 1 :=
  have hd : 0 < orbitingCamera.orbitalDistance := by
    rw [orbitingCamera_orbitalDistance]; norm_num
  ⟨rfl, rfl, hd,
   (update_orbit_faces_target (heapAt ⟨5, 5, 5⟩) orbitingCamera 0 0 rfl rfl hd).1,
   (update_orbit_faces_target (heapAt ⟨5, 5, 5⟩) orbitingCamera 0 0 rfl rfl hd).2.1⟩

/-! ## Camera: the orbital parameters set by `lookAt(element)` -/

theorem Direction.magnitude_eq_zero_iff (v : Direction) :
    v.magnitude = 0 ↔ v = ⟨0, 0, 0⟩ := by
  have h0 : 0 ≤ v.x * v.x + v.y * v.y + v.z * v.z :=
    add_nonneg (add_nonneg (mul_self_nonneg _) (mul_self_nonneg _)) (mul_self_nonneg _)
  unfold Direction.magnitude
  rw [Real.sqrt_eq_zero h0]
  constructor
  · intro hs
    have hx : v.x = 0 := by
      nlinarith [mul_self_nonneg v.x, mul_self_nonneg v.y, mul_self_nonneg v.z]
    have hy : v.y = 0 := by
      nlinarith [mul_self_nonneg v.x, mul_self_nonneg v.y, mul_self_nonneg v.z]
    have hz : v.z = 0 := by
      nlinarith [mul_self_nonneg v.x, mul_self_nonneg v.y, mul_self_nonneg v.z]
    cases v
    simp only at hx hy hz
    rw [hx, hy, hz]
  · intro hv
    rw [hv]
    norm_num

theorem Direction.normalized_magnitude (v : Direction) : v.normalized.magnitude = 1 := by
  have h0 : 0 ≤ v.x * v.x + v.y * v.y + v.z * v.z :=
    add_nonneg (add_nonneg (mul_self_nonneg _) (mul_self_nonneg _)) (mul_self_nonneg _)
  have hsq : v.magnitude * v.magnitude = v.x * v.x + v.y * v.y + v.z * v.z :=
    Real.mul_self_sqrt h0
  by_cases hm : v.magnitude = 0
  · have hn : v.normalized = ⟨0, 0, 1⟩ := by
      unfold Direction.normalized
      simp only [hm, if_true]
    rw [hn]
    unfold Direction.magnitude
    norm_num
  · have hn : v.normalized
        = ⟨v.x / v.magnitude, v.y / v.magnitude, v.z / v.magnitude⟩ := by
      unfold Direction.normalized
      simp only [hm, if_false]
    rw [hn]
    show Real.sqrt _ = 1
    rw [Real.sqrt_eq_iff_mul_self_eq_of_pos one_pos]
    field_simp
    linear_combination hsq

theorem Direction.normalized_of_unit (v : Direction) (hv : v.magnitude = 1) :
    v.normalized = v := by
  unfold Direction.normalized
  simp [hv]

/-- C16 (amended): in exact real arithmetic, `normalized` maps the zero vector to
exactly `(0, 0, 1)`; for a non-zero vector `v` it returns `v / |v|`, whose magnitude is
1, and normalizing that result again gives the same vector. -/
theorem normalized_spec (v : Direction) (hv : v ≠ ⟨0, 0, 0⟩) :
    Direction.normalized ⟨0, 0, 0⟩ = ⟨0, 0, 1⟩
    ∧ v.normalized = ⟨v.x / v.magnitude, v.y / v.magnitude, v.z / v.magnitude⟩
    ∧ v.normalized.magnitude = 1
    ∧ v.normalized.normalized = v.normalized := by
  have hm : v.magnitude ≠ 0 := fun hm => hv ((Direction.magnitude_eq_zero_iff v).1 hm)
  refine ⟨Direction.normalized_zero, ?_, Direction.normalized_magnitude v,
    Direction.normalized_of_unit _ (Direction.normalized_magnitude v)⟩
  unfold Direction.normalized
  simp only [hm, if_false]

/-- Witness for `normalized_spec`: the vector `(3, 0, 4)`, of magnitude 5, is
normalized to `(3/5, 0, 4/5)`. -/
theorem normalized_spec_witness :
    (Direction.mk 3 0 4) ≠ ⟨0, 0, 0⟩
    ∧ (Direction.mk 3 0 4).normalized = ⟨3 / 5, 0, 4 / 5⟩
    ∧ (Direction.mk 3 0 4).normalized.magnitude = 1 := by
  have hne : (Direction.mk 3 0 4) ≠ ⟨0, 0, 0⟩ := by
    intro hc
    have := congrArg Direction.x hc
    norm_num at this
  have hmag : (Direction.mk 3 0 4).magnitude = 5 := by
    unfold Direction.magnitude
    rw [Real.sqrt_eq_iff_mul_self_eq_of_pos (by norm_num)]
    norm_num
  have hw := normalized_spec (Direction.mk 3 0 4) hne
  refine ⟨hne, ?_, hw.2.2.1⟩
  rw [hw.2.1, hmag]
  norm_num

/-! ## Camera: the look point -/

/-- The effect of one operation on the look direction: unchanged, or replaced by a
normalized vector. -/
theorem Camera.step_lookDirection (c : Camera) (op : CameraOp) :
    (c.step op).lookDirection = c.lookDirection
    ∨ (c.step op).lookDirection.magnitude = 1 := by
  cases op with
  | follow h element => exact Or.inl rfl
  | stopFollowing => exact Or.inl rfl
  | lookAtDirection dir => exact Or.inr (Direction.normalized_magnitude _)
  | lookAt h element =>
    cases element with
    | none => exact Or.inl rfl
    | some e => exact Or.inl rfl
  | rotate h deltaYaw deltaPitch =>
    simp only [Camera.step, Camera.rotate]
    split
    · exact Or.inl rfl
    · exact Or.inr (Direction.normalized_magnitude _)
  | zoom h delta =>
    simp only [Camera.step, Camera.zoom]
    split <;> exact Or.inl rfl
  | update h deltaTime =>
    simp only [Camera.step, Camera.update]
    split
    · exact Or.inr (Direction.normalized_magnitude _)
    · split <;> exact Or.inl rfl
  | setPosition pos => exact Or.inl rfl
  | _ => exact Or.inl rfl

theorem Camera.reachable_lookDirection_unit (c : Camera) (hr : Camera.Reachable c) :
    c.lookDirection.magnitude = 1 := by
  induction hr with
  | ctor => simp [Camera.ctor, Camera.ctorAt, Direction.magnitude]
  | ctorAt pos => simp [Camera.ctorAt, Direction.magnitude]
  | step c op _ ih =>
    rcases Camera.step_lookDirection c op with h | h
    · rw [h]; exact ih
    · exact h

/-- C15 (amended): `calculateLookPoint` returns the position of the look-at target when
a look-at target is active and `position + lookDirection` otherwise; in exact real
arithmetic, in every camera state reachable through the public operations the look
direction has length 1, so that point is at Euclidean distance exactly 1 from the
camera position. -/
theorem calculateLookPoint_spec (h : Heap) (c : Camera) (hr : Camera.Reachable c) :
    (∀ t : Ptr, c.isLookingAtElement = true → c.lookAtTarget = some t →
        Camera.calculateLookPoint h c = (h t).position)
    ∧ ((c.isLookingAtElement = false ∨ c.lookAtTarget = none) →
        Camera.calculateLookPoint h c
            = ⟨c.position.x + c.lookDirection.x, c.position.y + c.lookDirection.y,
               c.position.z + c.lookDirection.z⟩
        ∧ (Camera.calculateLookPoint h c).distanceTo c.position = 1)
    ∧ c.lookDirection.magnitude = 1 := by
  have hunit := Camera.reachable_lookDirection_unit c hr
  refine ⟨?_, ?_, hunit⟩
  · intro t hl ht
    simp [Camera.calculateLookPoint, hl, ht]
  · intro hfree
    have hpoint : Camera.calculateLookPoint h c
        = ⟨c.position.x + c.lookDirection.x, c.position.y + c.lookDirection.y,
           c.position.z + c.lookDirection.z⟩ := by
      rcases hfree with hl | hl
      · simp [Camera.calculateLookPoint, hl]
      · cases hb : c.isLookingAtElement <;> simp [Camera.calculateLookPoint, hl, hb]
    refine ⟨hpoint, ?_⟩
    rw [hpoint]
    have hm := (Real.sqrt_eq_iff_mul_self_eq_of_pos one_pos).1 hunit
    simp only [Point.distanceTo]
    rw [Real.sqrt_eq_iff_mul_self_eq_of_pos one_pos]
    linear_combination hm

/-- Witness for `calculateLookPoint_spec`: the default camera after a free-look
`rotate(1, 1/2)`; its look point is one unit away from it. -/
theorem calculateLookPoint_spec_witness :
    Camera.Reachable (Camera.ctor.step (CameraOp.rotate (heapAt ⟨0, 0, 10⟩) 1 (1 / 2)))
    ∧ (Camera.ctor.step
        (CameraOp.rotate (heapAt ⟨0, 0, 10⟩) 1 (1 / 2))).lookDirection.magnitude = 1 :=
  ⟨Camera.Reachable.step _ _ Camera.Reachable.ctor,
   (calculateLookPoint_spec (heapAt ⟨0, 0, 10⟩) _
     (Camera.Reachable.step _ _ Camera.Reachable.ctor)).2.2⟩

/-! ## Camera: `lookAt(direction)` -/

/-- C17: `lookAt(direction v)` clears the look-at target and its flag, sets the look
direction to `normalized(v)` (which is `(0, 0, 1)` when `v` is the zero vector), and
leaves the position and every other `Element` member, the follow target and flag, the
follow offset and the orbital yaw, pitch and distance unchanged. -/
theorem lookAtDirection_frame (c : Camera) (v : Direction) :
    (Camera.lookAtDirection c v).lookAtTarget = none
    ∧ (Camera.lookAtDirection c v).isLookingAtElement = false
    ∧ (Camera.lookAtDirection c v).lookDirection = v.normalized
    ∧ (Camera.lookAtDirection c ⟨0, 0, 0⟩).lookDirection = ⟨0, 0, 1⟩
    ∧ (Camera.lookAtDirection c v).position = c.position
    ∧ (Camera.lookAtDirection c v).toElement = c.toElement
    ∧ (Camera.lookAtDirection c v).followTarget = c.followTarget
    ∧ (Camera.lookAtDirection c v).isFollowing = c.isFollowing
    ∧ (Camera.lookAtDirection c v).followOffset = c.followOffset
    ∧ (Camera.lookAtDirection c v).orbitalYaw = c.orbitalYaw
    ∧ (Camera.lookAtDirection c v).orbitalPitch = c.orbitalPitch
    ∧ (Camera.lookAtDirection c v).orbitalDistance = c.orbitalDistance :=
  ⟨rfl, rfl, rfl, Direction.normalized_zero, rfl, rfl, rfl, rfl, rfl, rfl, rfl, rfl⟩

/-! ## Renderer: the two loops over the registry -/

theorem Renderer.updateElements_append (l : List (Option Ptr)) (a : Ptr) (h : Heap)
    (dt : ℝ) :
    Renderer.updateElements (l ++ [some a]) h dt
      = Function.update (Renderer.updateElements l h dt) a
          (((Renderer.updateElements l h dt) a).update dt) := by
  simp [Renderer.updateElements, List.foldl_append]

theorem Renderer.renderElements_append (l : List (Option Ptr)) (a : Ptr) (h : Heap) :
    Renderer.renderElements (l ++ [some a]) h
      = Renderer.renderElements l h ++ [RenderCall.renderElement a (h a)] := by
  simp [Renderer.renderElements, List.foldl_append]

theorem Renderer.updateElements_filter (l : List (Option Ptr)) (dt : ℝ) :
    ∀ h : Heap, Renderer.updateElements (l.filter Option.isSome) h dt
      = Renderer.updateElements l h dt := by
  induction l with
  | nil => intro h; rfl
  | cons x rest ih =>
    intro h
    cases x with
    | none => exact ih h
    | some p => exact ih _

theorem Renderer.updateElements_filterMap (l : List (Option Ptr)) (dt : ℝ) :
    ∀ h : Heap, Renderer.updateElements l h dt
      = (l.filterMap id).foldl (fun hp p => Function.update hp p ((hp p).update dt)) h := by
  induction l with
  | nil => intro h; rfl
  | cons x rest ih =>
    intro h
    cases x with
    | none => exact ih h
    | some p => exact ih _

theorem Renderer.renderLoop_acc (heap : Heap) (l : List (Option Ptr)) :
    ∀ acc : List RenderCall,
      l.foldl
        (fun calls element =>
          match element with
          | some p => calls ++ [RenderCall.renderElement p (heap p)]
          | none => calls)
        acc
      = acc ++ (l.filterMap id).map (fun p => RenderCall.renderElement p (heap p)) := by
  induction l with
  | nil => intro acc; simp
  | cons x rest ih =>
    intro acc
    cases x with
    | none => simpa using ih acc
    | some p => simpa using ih (acc ++ [RenderCall.renderElement p (heap p)])

theorem Renderer.renderElements_filterMap (l : List (Option Ptr)) (heap : Heap) :
    Renderer.renderElements l heap
      = (l.filterMap id).map (fun p => RenderCall.renderElement p (heap p)) := by
  unfold Renderer.renderElements
  rw [Renderer.renderLoop_acc heap l []]
  rfl

theorem filterMap_id_filter_isSome (l : List (Option Ptr)) :
    (l.filter Option.isSome).filterMap id = l.filterMap id := by
  induction l with
  | nil => rfl
  | cons x rest ih =>
    cases x with
    | none => simpa using ih
    | some p => simpa using ih

theorem Renderer.renderElements_filter (l : List (Option Ptr)) (heap : Heap) :
    Renderer.renderElements (l.filter Option.isSome) heap = Renderer.renderElements l heap := by
  rw [Renderer.renderElements_filterMap, Renderer.renderElements_filterMap,
    filterMap_id_filter_isSome]

/-! ## Scene: creating elements and entities -/

theorem Scene.update_renderer (s : Scene) (dt : ℝ) : (s.update dt).renderer = s.renderer := by
  unfold Scene.update
  split <;> rfl

theorem Scene.updateSeq_renderer (deltas : List ℝ) :
    ∀ s : Scene, (s.updateSeq deltas).renderer = s.renderer := by
  induction deltas with
  | nil => intro s; rfl
  | cons d rest ih =>
    intro s
    show (Scene.updateSeq (s.update d) rest).renderer = s.renderer
    rw [ih, Scene.update_renderer]

/-- C18: `createElement` returns the pointer to the new object, which it stores in
memory (leaving every other object as it was) and appends as the last entry of the
renderer's element list and of the scene's owned elements, the earlier entries of both
lists staying as they were; the entry stays registered through later `update` calls of
the scene, and each later pass of the renderer's update loop and render loop visits the
earlier entries first and the new element last. -/
theorem createElement_appends (s : Scene) (addr : Ptr) (obj : Element) :
    (s.createElement addr obj).2 = some addr
    ∧ (s.createElement addr obj).1.heap addr = obj
    ∧ (∀ p : Ptr, p ≠ addr → (s.createElement addr obj).1.heap p = s.heap p)
    ∧ (s.createElement addr obj).1.renderer.elements = s.renderer.elements ++ [some addr]
    ∧ (s.createElement addr obj).1.ownedElements = s.ownedElements ++ [addr]
    ∧ (∀ deltas : List ℝ,
        ((s.createElement addr obj).1.updateSeq deltas).renderer.elements
          = s.renderer.elements ++ [some addr])
    ∧ (∀ (h : Heap) (dt : ℝ),
        Renderer.updateElements (s.createElement addr obj).1.renderer.elements h dt
          = Function.update (Renderer.updateElements s.renderer.elements h dt) addr
              (((Renderer.updateElements s.renderer.elements h dt) addr).update dt))
    ∧ (∀ h : Heap,
        Renderer.renderElements (s.createElement addr obj).1.renderer.elements h
          = Renderer.renderElements s.renderer.elements h
              ++ [RenderCall.renderElement addr (h addr)]) := by
  refine ⟨rfl, ?_, ?_, rfl, rfl, ?_, ?_, ?_⟩
  · simp [Scene.createElement]
  · intro p hp
    simp [Scene.createElement, Function.update_noteq hp]
  · intro deltas
    rw [Scene.updateSeq_renderer]
    rfl
  · intro h dt
    exact Renderer.updateElements_append s.renderer.elements addr h dt
  · intro h
    exact Renderer.renderElements_append s.renderer.elements addr h

/-- Witness for `createElement_appends`: in a fresh scene, `createElement` of a default
element placed at address 7 makes `[7]` the registry and the owned list, and leaves the
object at address 3 as it was. -/
theorem createElement_appends_witness :
    (3 : Ptr) ≠ 7
    ∧ ((Scene.ctor "Scene" (heapAt ⟨1, 2, 3⟩)).createElement 7 Element.ctor).1.heap 3
        = (Scene.ctor "Scene" (heapAt ⟨1, 2, 3⟩)).heap 3
    ∧ ((Scene.ctor "Scene" (heapAt ⟨1, 2, 3⟩)).createElement 7
        Element.ctor).1.renderer.elements = [some 7]
    ∧ ((Scene.ctor "Scene" (heapAt ⟨1, 2, 3⟩)).createElement 7 Element.ctor).1.ownedElements
        = [7] :=
  ⟨by decide,
   (createElement_appends (Scene.ctor "Scene" (heapAt ⟨1, 2, 3⟩)) 7 Element.ctor).2.2.1 3
     (by decide),
   (createElement_appends (Scene.ctor "Scene" (heapAt ⟨1, 2, 3⟩)) 7 Element.ctor).2.2.2.1,
   (createElement_appends (Scene.ctor "Scene" (heapAt ⟨1, 2, 3⟩)) 7 Element.ctor).2.2.2.2.1⟩

/-- C19: `createEntity` appends the new entity to the entity list of the scene and
registers with the renderer exactly the body of the entity when it has one, and
nothing when it has none; so `createEntity<Player>()` registers the body that the
player allocates, and `createEntity<Entity>()` leaves the element list as it was. The
element list only ever receives the body pointer, never the entity. -/
theorem createEntity_registers_body (s : Scene) (entity : EntityObj) (bodyAddr : Ptr) :
    (s.createEntity entity).entities = s.entities ++ [entity]
    ∧ (∀ b : Ptr, entity.getBody = some b →
        (s.createEntity entity).renderer.elements = s.renderer.elements ++ [some b])
    ∧ (entity.getBody = none →
        (s.createEntity entity).renderer.elements = s.renderer.elements)
    ∧ (s.createPlayer bodyAddr).entities
        = s.entities ++ [EntityObj.player (Player.ctor bodyAddr)]
    ∧ (s.createPlayer bodyAddr).renderer.elements = s.renderer.elements ++ [some bodyAddr]
    ∧ (s.createPlayer bodyAddr).heap bodyAddr = Player.ctorBody
    ∧ s.createPlainEntity.entities = s.entities ++ [EntityObj.entity Entity.ctor]
    ∧ s.createPlainEntity.renderer.elements = s.renderer.elements := by
  refine ⟨rfl, ?_, ?_, rfl, rfl, ?_, rfl, rfl⟩
  · intro b hb
    simp [Scene.createEntity, hb, Renderer.addElement]
  · intro hb
    simp [Scene.createEntity, hb]
  · simp [Scene.createPlayer, Scene.createEntity]

/-- Witness for `createEntity_registers_body`: adding a new player whose body is at
address 4 to a fresh scene registers exactly that body, and adding a plain entity
registers nothing. -/
theorem createEntity_registers_body_witness :
    (EntityObj.player (Player.ctor 4)).getBody = some 4
    ∧ ((Scene.ctor "Scene" (heapAt ⟨1, 2, 3⟩)).createEntity
        (EntityObj.player (Player.ctor 4))).renderer.elements = [some 4]
    ∧ (EntityObj.entity Entity.ctor).getBody = none
    ∧ ((Scene.ctor "Scene" (heapAt ⟨1, 2, 3⟩)).createEntity
        (EntityObj.entity Entity.ctor)).renderer.elements = [] :=
  ⟨rfl,
   (createEntity_registers_body (Scene.ctor "Scene" (heapAt ⟨1, 2, 3⟩))
     (EntityObj.player (Player.ctor 4)) 4).2.1 4 rfl,
   rfl,
   (createEntity_registers_body (Scene.ctor "Scene" (heapAt ⟨1, 2, 3⟩))
     (EntityObj.entity Entity.ctor) 4).2.2.1 rfl⟩

/-! ## Renderer: null entries -/

/-- C20: `Renderer::update` and `Renderer::render` skip the null entries of the
registry. `update` leaves the memory obtained by updating the non-null entries one
after the other in registration order, and then updates the camera on that memory;
`render` issues the clear, the camera (or default view), the lights and the polygon
mode, then one `render()` per non-null entry in registration order, then the buffer
swap. Hence each of the two has the same effect as on the registry with the null
entries removed. -/
theorem renderer_skips_null_entries (r : Renderer) (heap : Heap) (camera : Camera)
    (dt : ℝ) :
    (Renderer.update r heap camera dt).1
        = (r.elements.filterMap id).foldl
            (fun hp p => Function.update hp p ((hp p).update dt)) heap
    ∧ (Renderer.update r heap camera dt).2
        = (if r.activeCamera then
            Camera.update
              ((r.elements.filterMap id).foldl
                (fun hp p => Function.update hp p ((hp p).update dt)) heap)
              camera dt
          else camera)
    ∧ Renderer.render r heap camera
        = [RenderCall.clear r.clearColor]
          ++ (if r.activeCamera then Renderer.applyCamera heap camera
              else [RenderCall.perspective 45 1.333 0.1 1000,
                    RenderCall.view ⟨0, 5, 20⟩ ⟨0, 0, 0⟩ ⟨0, 1, 0⟩])
          ++ (if r.lightingEnabled then
                RenderCall.lighting true :: r.lights.map RenderCall.applyLight
              else [RenderCall.lighting false])
          ++ [RenderCall.polygonMode r.wireframeMode]
          ++ (r.elements.filterMap id).map (fun p => RenderCall.renderElement p (heap p))
          ++ [RenderCall.swapBuffers]
    ∧ Renderer.update r heap camera dt
        = Renderer.update { r with elements := r.elements.filter Option.isSome } heap camera dt
    ∧ Renderer.render r heap camera
        = Renderer.render { r with elements := r.elements.filter Option.isSome } heap camera
    ∧ Renderer.updateElements r.elements heap dt
        = (r.elements.filterMap id).foldl
            (fun hp p => Function.update hp p ((hp p).update dt)) heap
    ∧ Renderer.renderElements r.elements heap
        = (r.elements.filterMap id).map (fun p => RenderCall.renderElement p (heap p)) := by
  have hu := Renderer.updateElements_filterMap r.elements dt heap
  have hr := Renderer.renderElements_filterMap r.elements heap
  refine ⟨?_, ?_, ?_, ?_, ?_, hu, hr⟩
  · show Renderer.updateElements r.elements heap dt = _
    exact hu
  · show (if r.activeCamera then
        Camera.update (Renderer.updateElements r.elements heap dt) camera dt else camera) = _
    rw [hu]
  · simp only [Renderer.render, hr]
  · simp only [Renderer.update, Renderer.updateElements_filter]
  · simp only [Renderer.render, Renderer.renderElements_filter]

/-- Witness for `renderer_skips_null_entries`, on the registry `[null, 1, null, 0]`:
`update(1)` on elements of velocity 1 and zero
heading moves both registered elements by 1 along `z`, and the element calls of
`render` are `1` then `0`. -/
theorem renderer_skips_null_entries_witness :
    ((Renderer.update { Renderer.ctor with elements := [none, some 1, none, some 0] }
        (fun _ => zeroHeadingElement) Camera.ctor 1).1 0).position = ⟨0, 0, 1⟩
    ∧ ((Renderer.update { Renderer.ctor with elements := [none, some 1, none, some 0] }
        (fun _ => zeroHeadingElement) Camera.ctor 1).1 1).position = ⟨0, 0, 1⟩
    ∧ Renderer.renderElements [none, some 1, none, some 0] (fun _ => zeroHeadingElement)
        = [RenderCall.renderElement 1 zeroHeadingElement,
           RenderCall.renderElement 0 zeroHeadingElement] := by
  have h := renderer_skips_null_entries
    { Renderer.ctor with elements := [none, some 1, none, some 0] }
    (fun _ => zeroHeadingElement) Camera.ctor 1
  have h10 : (1 : Ptr) ≠ 0 := by decide
  have h01 : (0 : Ptr) ≠ 1 := by decide
  refine ⟨?_, ?_, ?_⟩
  · rw [h.1]
    simp [Function.update, h10, h01, zeroHeadingElement, Element.update, Element.setVelocity,
      Element.setMovementDirection, Element.ctor, Element.ctorAt, Point.origin,
      Direction.normalized_zero]
  · rw [h.1]
    simp [Function.update, h10, h01, zeroHeadingElement, Element.update, Element.setVelocity,
      Element.setMovementDirection, Element.ctor, Element.ctorAt, Point.origin,
      Direction.normalized_zero]
  · rw [Renderer.renderElements_filterMap]
    rfl

/-! ## The demo scene while paused -/

/-- C21 (code defect): in the paused demo world (star, planet and ring present, all
counters at 0), `FantasyWorld::update(1)` still advances the per-frame state: the world
time goes from 0 to 1, the star rotation from 0 to 0.1 (and the star is turned to yaw
0.1), the planet and its ring are moved to `(50 cos 0.05, 0, 50 sin 0.05)` and the
planet is spun to yaw 0.5. -/
theorem paused_demo_world_still_advances :
    pausedFantasyWorld.paused = true
    ∧ pausedFantasyWorld.worldTime = 0
    ∧ (pausedFantasyWorld.update 1).worldTime = 1
    ∧ (pausedFantasyWorld.update 1).worldTime ≠ pausedFantasyWorld.worldTime
    ∧ (pausedFantasyWorld.update 1).starRotation = 0.1
    ∧ (pausedFantasyWorld.heap 1).rotation = ⟨0, 0, 0⟩
    ∧ ((pausedFantasyWorld.update 1).heap 1).rotation = ⟨0, 0.1, 0⟩
    ∧ (pausedFantasyWorld.heap 2).position = ⟨0, 0, 0⟩
    ∧ ((pausedFantasyWorld.update 1).heap 2).position
        = ⟨Real.cos 0.05 * 50, 0, Real.sin 0.05 * 50⟩
    ∧ ((pausedFantasyWorld.update 1).heap 3).position
        = ⟨Real.cos 0.05 * 50, 0, Real.sin 0.05 * 50⟩
    ∧ ((pausedFantasyWorld.update 1).heap 2).rotation.yaw = 0.5 := by
  have hs : Scene.update pausedFantasyWorld.toScene 1 = pausedFantasyWorld.toScene :=
    Scene.update_paused _ 1 rfl
  have h21 : (2 : Ptr) ≠ 1 := by decide
  have h31 : (3 : Ptr) ≠ 1 := by decide
  have h32 : (3 : Ptr) ≠ 2 := by decide
  have h23 : (2 : Ptr) ≠ 3 := by decide
  refine ⟨rfl, rfl, ?_, ?_, ?_, rfl, ?_, rfl, ?_, ?_, ?_⟩
  · simp [FantasyWorld.update, pausedFantasyWorld, FantasyWorld.ctor]
  · simp [FantasyWorld.update, pausedFantasyWorld, FantasyWorld.ctor]
  · simp [FantasyWorld.update, pausedFantasyWorld, FantasyWorld.ctor]
  · simp only [FantasyWorld.update, hs]
    simp [pausedFantasyWorld, FantasyWorld.ctor, Scene.ctor, Scene.setPaused, heapAt,
      Element.ctorAt, Element.setRotation, Element.setPosition, Function.update, h21, h31,
      h32, h23]
  · simp only [FantasyWorld.update, hs]
    simp [pausedFantasyWorld, FantasyWorld.ctor, Scene.ctor, Scene.setPaused, heapAt,
      Element.ctorAt, Element.setRotation, Element.setPosition, Function.update, h21, h31,
      h32, h23]
  · simp only [FantasyWorld.update, hs]
    simp [pausedFantasyWorld, FantasyWorld.ctor, Scene.ctor, Scene.setPaused, heapAt,
      Element.ctorAt, Element.setRotation, Element.setPosition, Function.update, h21, h31,
      h32, h23]
  · simp only [FantasyWorld.update, hs]
    simp [pausedFantasyWorld, FantasyWorld.ctor, Scene.ctor, Scene.setPaused, heapAt,
      Element.ctorAt, Element.setRotation, Element.setPosition, Function.update, h21, h31,
      h32, h23, Rotation.zero]

/-! ## Camera: `rotate` around the target -/

/-- C24: for a camera that is already following, `follow(other)` with a non-null
element replaces the follow target and leaves `followOffset` unchanged; with no active
look-at target the next `update` puts the camera at the position of `other` plus that
old offset. For every camera, `follow(nullptr)` has the same effect as
`stopFollowing`. -/
theorem follow_while_following (h h2 : Heap) (c : Camera) (other : Ptr) (dt : ℝ)
    (hf : c.isFollowing = true) :
    (Camera.follow h c (some other)).followTarget = some other
    ∧ (Camera.follow h c (some other)).isFollowing = true
    ∧ (Camera.follow h c (some other)).followOffset = c.followOffset
    ∧ ((c.isLookingAtElement = false ∨ c.lookAtTarget = none) →
        (Camera.update h2 (Camera.follow h c (some other)) dt).position
          = (h2 other).position.add c.followOffset)
    ∧ Camera.follow h c none = Camera.stopFollowing c := by
  have ho : (Camera.follow h c (some other)).followOffset = c.followOffset := by
    simp [Camera.follow, hf]
  refine ⟨rfl, rfl, ho, ?_, rfl⟩
  intro hl
  rw [Camera.update_follow h2 (Camera.follow h c (some other)) other dt rfl rfl hl, ho]

/-- Witness for `follow_while_following`: the camera of the following scene (offset
`(0, 2, 10)` from the body at address 0) is told to follow the object at address 1;
with that object at `(5, 5, 5)`, `update` puts the camera at `(5, 7, 15)`. -/
theorem follow_while_following_witness :
    followingScene.camera.isFollowing = true
    ∧ (Camera.follow (heapAt ⟨5, 5, 5⟩) followingScene.camera (some 1)).followTarget = some 1
    ∧ (Camera.update (heapAt ⟨5, 5, 5⟩)
        (Camera.follow (heapAt ⟨5, 5, 5⟩) followingScene.camera (some 1)) 0).position
        = ⟨5, 7, 15⟩ := by
  have hw := follow_while_following (heapAt ⟨5, 5, 5⟩) (heapAt ⟨5, 5, 5⟩)
    followingScene.camera 1 0 rfl
  refine ⟨rfl, hw.1, ?_⟩
  rw [hw.2.2.2.1 (Or.inl rfl)]
  simp [followingScene, Camera.follow, Camera.ctorAt, Element.ctorAt, heapAt, Point.origin,
    Point.add, Point.sub]
  norm_num

/-! ## The frame driver -/

/-- C25: `Application::update` hands to the update of the world the measured delta
`currentTime - lastTime` capped at 0.1, that is `min(measured, 0.1)`: the value handed
over is at most 0.1, and a measured delta that does not exceed 0.1 is handed over
unchanged. -/
theorem application_update_caps_delta (app : Application) (currentTime : ℝ) :
    (app.update currentTime).deltaTime = min (currentTime - app.lastTime) 0.1
    ∧ (app.update currentTime).world
        = app.world.update (min (currentTime - app.lastTime) 0.1)
    ∧ (app.update currentTime).deltaTime ≤ 0.1
    ∧ (currentTime - app.lastTime ≤ 0.1 →
        (app.update currentTime).deltaTime = currentTime - app.lastTime
        ∧ (app.update currentTime).world = app.world.update (currentTime - app.lastTime))
    ∧ (app.update currentTime).lastTime = currentTime := by
  have hmin : (if currentTime - app.lastTime > 0.1 then (0.1 : ℝ)
      else currentTime - app.lastTime) = min (currentTime - app.lastTime) 0.1 := by
    split_ifs with hgt
    · exact (min_eq_right hgt.le).symm
    · exact (min_eq_left (not_lt.mp hgt)).symm
  have hd : (app.update currentTime).deltaTime = min (currentTime - app.lastTime) 0.1 := by
    simp only [Application.update]
    exact hmin
  have hw : (app.update currentTime).world
      = app.world.update (min (currentTime - app.lastTime) 0.1) := by
    simp only [Application.update]
    rw [hmin]
  refine ⟨hd, hw, ?_, ?_, rfl⟩
  · rw [hd]; exact min_le_right _ _
  · intro hle
    rw [hd, hw, min_eq_left hle]
    exact ⟨rfl, rfl⟩

/-- Witness for `application_update_caps_delta`: after a stall of 3 seconds the delta
handed over is 0.1, and after a frame of 0.016 seconds it is 0.016. -/
theorem application_update_caps_delta_witness :
    ((Application.mk pausedFantasyWorld 10 0).update 13).deltaTime = 0.1
    ∧ (10.016 : ℝ) - 10 ≤ 0.1
    ∧ ((Application.mk pausedFantasyWorld 10 0).update 10.016).deltaTime = 0.016 := by
  have hle : (10.016 : ℝ) - 10 ≤ 0.1 := by norm_num
  refine ⟨?_, hle, ?_⟩
  · rw [(application_update_caps_delta (Application.mk pausedFantasyWorld 10 0) 13).1]
    norm_num
  · rw [((application_update_caps_delta (Application.mk pausedFantasyWorld 10 0) 10.016).2.2.2.1
      hle).1]
    norm_num

/-! ## Camera: the distance kept by `lookAt(element)` and `update` -/

/-- One operation keeps the flags equal to "the target is not null". -/
theorem Camera.step_flags (c : Camera) (op : CameraOp)
    (hinv : c.isFollowing = c.followTarget.isSome
      ∧ c.isLookingAtElement = c.lookAtTarget.isSome) :
    (c.step op).isFollowing = (c.step op).followTarget.isSome
    ∧ (c.step op).isLookingAtElement = (c.step op).lookAtTarget.isSome := by
  cases op with
  | follow h element => exact ⟨rfl, hinv.2⟩
  | stopFollowing => exact ⟨rfl, hinv.2⟩
  | lookAtDirection dir => exact ⟨hinv.1, rfl⟩
  | lookAt h element =>
    cases element with
    | none => exact ⟨hinv.1, rfl⟩
    | some e => exact ⟨hinv.1, rfl⟩
  | rotate h deltaYaw deltaPitch =>
    simp only [Camera.step, Camera.rotate]
    split <;> exact hinv
  | zoom h delta =>
    simp only [Camera.step, Camera.zoom]
    split <;> exact hinv
  | update h deltaTime =>
    simp only [Camera.step, Camera.update]
    split
    · exact hinv
    · split <;> exact hinv
  | _ => exact hinv

theorem Camera.reachable_flags (c : Camera) (hr : Camera.Reachable c) :
    c.isFollowing = c.followTarget.isSome ∧ c.isLookingAtElement = c.lookAtTarget.isSome := by
  induction hr with
  | ctor => exact ⟨rfl, rfl⟩
  | ctorAt pos => exact ⟨rfl, rfl⟩
  | step c op _ ih => exact Camera.step_flags c op ih

/-- C27: in every camera state reachable from construction through the public
operations, `isFollowing` is true exactly when `followTarget` is not null and
`isLookingAtElement` is true exactly when `lookAtTarget` is not null; `stopFollowing`
does not change the look-at target or its flag, and neither `lookAt` overload changes
the follow target or its flag. -/
theorem flags_agree_with_targets (c : Camera) (hr : Camera.Reachable c) :
    (c.isFollowing = true ↔ c.followTarget ≠ none)
    ∧ (c.isLookingAtElement = true ↔ c.lookAtTarget ≠ none)
    ∧ (Camera.stopFollowing c).lookAtTarget = c.lookAtTarget
    ∧ (Camera.stopFollowing c).isLookingAtElement = c.isLookingAtElement
    ∧ (∀ v : Direction,
        (Camera.lookAtDirection c v).followTarget = c.followTarget
        ∧ (Camera.lookAtDirection c v).isFollowing = c.isFollowing)
    ∧ (∀ (h : Heap) (element : Option Ptr),
        (Camera.lookAt h c element).followTarget = c.followTarget
        ∧ (Camera.lookAt h c element).isFollowing = c.isFollowing) := by
  obtain ⟨h1, h2⟩ := Camera.reachable_flags c hr
  refine ⟨?_, ?_, rfl, rfl, fun _ => ⟨rfl, rfl⟩, ?_⟩
  · rw [h1, Option.isSome_iff_ne_none]
  · rw [h2, Option.isSome_iff_ne_none]
  · intro h element
    cases element with
    | none => exact ⟨rfl, rfl⟩
    | some e => exact ⟨rfl, rfl⟩

/-- Witness for `flags_agree_with_targets`: the default camera after `follow` on the
object at address 0 and then `lookAt` on the object at address 1 has both flags set and
both targets non-null. -/
theorem flags_agree_with_targets_witness :
    Camera.Reachable
      ((Camera.ctor.step (CameraOp.follow (heapAt ⟨0, 2, 0⟩) (some 0))).step
        (CameraOp.lookAt (heapAt ⟨0, 2, 0⟩) (some 1)))
    ∧ (((Camera.ctor.step (CameraOp.follow (heapAt ⟨0, 2, 0⟩) (some 0))).step
        (CameraOp.lookAt (heapAt ⟨0, 2, 0⟩) (some 1))).isFollowing = true
      ↔ ((Camera.ctor.step (CameraOp.follow (heapAt ⟨0, 2, 0⟩) (some 0))).step
        (CameraOp.lookAt (heapAt ⟨0, 2, 0⟩) (some 1))).followTarget ≠ none) :=
  ⟨Camera.Reachable.step _ _ (Camera.Reachable.step _ _ Camera.Reachable.ctor),
   (flags_agree_with_targets _
     (Camera.Reachable.step _ _ (Camera.Reachable.step _ _ Camera.Reachable.ctor))).1⟩

/-! ## Element: `update` is additive in time -/

theorem Element.update_position (e : Element) (dt : ℝ) :
    (e.update dt).position
      = ⟨e.position.x + e.movementDirection.normalized.x * e.velocity * dt,
         e.position.y + e.movementDirection.normalized.y * e.velocity * dt,
         e.position.z + e.movementDirection.normalized.z * e.velocity * dt⟩ := by
  unfold Element.update
  by_cases hv : e.velocity = 0
  · simp [hv]
  · simp [hv]

theorem Element.update_velocity (e : Element) (dt : ℝ) :
    (e.update dt).velocity = e.velocity := by
  unfold Element.update
  split <;> rfl

theorem Element.update_movementDirection (e : Element) (dt : ℝ) :
    (e.update dt).movementDirection = e.movementDirection := by
  unfold Element.update
  split <;> rfl

/-- C28: `Element::update` is additive in time: `update(a)` followed by `update(b)`
gives the position of a single `update(a + b)`, and leaves velocity and movement
direction as they were; `update(0)` and every update with velocity 0 leave the position
unchanged; and the displacement of `update(dt)` has length `|velocity * dt|` whatever
the movement direction. -/
theorem update_additive (e : Element) (a b dt : ℝ) :
    ((e.update a).update b).position = (e.update (a + b)).position
    ∧ (e.update a).velocity = e.velocity
    ∧ (e.update a).movementDirection = e.movementDirection
    ∧ (e.update 0).position = e.position
    ∧ (e.velocity = 0 → (e.update dt).position = e.position)
    ∧ (e.update dt).position.distanceTo e.position = |e.velocity * dt| := by
  have hunit := Direction.normalized_magnitude e.movementDirection
  have hn := (Real.sqrt_eq_iff_mul_self_eq_of_pos one_pos).1 hunit
  refine ⟨?_, Element.update_velocity e a, Element.update_movementDirection e a, ?_, ?_, ?_⟩
  · rw [Element.update_position (e.update a) b, Element.update_velocity,
      Element.update_movementDirection, Element.update_position e a,
      Element.update_position e (a + b)]
    congr 1 <;> ring
  · rw [Element.update_position]
    simp
  · intro hv
    rw [Element.update_position, hv]
    simp
  · rw [Element.update_position]
    simp only [Point.distanceTo]
    rw [Real.sqrt_eq_iff_mul_self_eq
      (add_nonneg (add_nonneg (mul_self_nonneg _) (mul_self_nonneg _)) (mul_self_nonneg _))
      (abs_nonneg _), abs_mul_abs_self]
    linear_combination (-(e.velocity * dt) ^ 2) * hn

/-- Witness for `update_additive`: the zero-heading element (velocity 1) has velocity
different from 0, and its `update(2)` moves it by a distance of 2. -/
theorem update_additive_witness :
    ((zeroHeadingElement.update 1).update 1).position = (zeroHeadingElement.update (1 + 1)).position
    ∧ (zeroHeadingElement.update 2).position.distanceTo zeroHeadingElement.position
        = |zeroHeadingElement.velocity * 2| :=
  ⟨(update_additive zeroHeadingElement 1 1 2).1,
   (update_additive zeroHeadingElement 1 1 2).2.2.2.2.2⟩

/-! ## Renderer: duplicate registrations -/

theorem Direction.fromAngles_magnitude (pitch yaw : ℝ) :
    (Direction.fromAngles pitch yaw).magnitude = 1 := by
  have h1 := Real.sin_sq_add_cos_sq yaw
  have h2 := Real.sin_sq_add_cos_sq pitch
  simp only [Direction.fromAngles, Direction.magnitude]
  rw [Real.sqrt_eq_iff_mul_self_eq_of_pos one_pos]
  linear_combination (-(Real.cos pitch ^ 2)) * h1 - h2

theorem right_vector_magnitude (pitch yaw : ℝ) :
    ((Direction.fromAngles pitch yaw).cross ⟨0, 1, 0⟩).magnitude = |Real.cos pitch| := by
  have h1 := Real.sin_sq_add_cos_sq yaw
  simp only [Direction.fromAngles, Direction.cross, Direction.magnitude]
  rw [Real.sqrt_eq_iff_mul_self_eq
    (add_nonneg (add_nonneg (mul_self_nonneg _) (mul_self_nonneg _)) (mul_self_nonneg _))
    (abs_nonneg _), abs_mul_abs_self]
  linear_combination (Real.cos pitch ^ 2) * h1

theorem right_vector_normalized (pitch yaw : ℝ) (hc : Real.cos pitch ≠ 0) :
    ((Direction.fromAngles pitch yaw).cross ⟨0, 1, 0⟩).normalized
      = ⟨-(Real.cos pitch * Real.cos yaw) / |Real.cos pitch|, 0,
         Real.cos pitch * Real.sin yaw / |Real.cos pitch|⟩ := by
  have hm := right_vector_magnitude pitch yaw
  have hne : ((Direction.fromAngles pitch yaw).cross ⟨0, 1, 0⟩).magnitude ≠ 0 := by
    rw [hm]; exact abs_ne_zero.mpr hc
  have hn : ((Direction.fromAngles pitch yaw).cross ⟨0, 1, 0⟩).normalized
      = ⟨((Direction.fromAngles pitch yaw).cross ⟨0, 1, 0⟩).x
            / ((Direction.fromAngles pitch yaw).cross ⟨0, 1, 0⟩).magnitude,
         ((Direction.fromAngles pitch yaw).cross ⟨0, 1, 0⟩).y
            / ((Direction.fromAngles pitch yaw).cross ⟨0, 1, 0⟩).magnitude,
         ((Direction.fromAngles pitch yaw).cross ⟨0, 1, 0⟩).z
            / ((Direction.fromAngles pitch yaw).cross ⟨0, 1, 0⟩).magnitude⟩ := by
    unfold Direction.normalized
    simp only [hne, if_false]
  rw [hn, hm]
  simp [Direction.fromAngles, Direction.cross]

/-- C30: for a body whose rotation has `cos(pitch) ≠ 0` and every speed `s`,
`moveRight(s)` leaves the `y` coordinate unchanged and moves the body by `s` times the
vector `(-cos pitch * cos yaw, 0, cos pitch * sin yaw) / |cos pitch|`, a displacement of
length `|s|` that is perpendicular to the forward direction `fromAngles(pitch, yaw)`;
`moveForward(s)` moves the body by `s` times that forward direction, which has
length 1. -/
theorem body_move_right_and_forward (b : Element) (s : ℝ)
    (hc : Real.cos b.rotation.pitch ≠ 0) :
    (Body.moveRight b s).position.y = b.position.y
    ∧ (Body.moveRight b s).position
        = ⟨b.position.x
            + -(Real.cos b.rotation.pitch * Real.cos b.rotation.yaw)
              / |Real.cos b.rotation.pitch| * s,
           b.position.y,
           b.position.z
            + Real.cos b.rotation.pitch * Real.sin b.rotation.yaw
              / |Real.cos b.rotation.pitch| * s⟩
    ∧ (Body.moveRight b s).position.distanceTo b.position = |s|
    ∧ ((Body.moveRight b s).position.x - b.position.x)
          * (Direction.fromAngles b.rotation.pitch b.rotation.yaw).x
        + ((Body.moveRight b s).position.y - b.position.y)
          * (Direction.fromAngles b.rotation.pitch b.rotation.yaw).y
        + ((Body.moveRight b s).position.z - b.position.z)
          * (Direction.fromAngles b.rotation.pitch b.rotation.yaw).z = 0
    ∧ (Body.moveForward b s).position
        = ⟨b.position.x + (Direction.fromAngles b.rotation.pitch b.rotation.yaw).x * s,
           b.position.y + (Direction.fromAngles b.rotation.pitch b.rotation.yaw).y * s,
           b.position.z + (Direction.fromAngles b.rotation.pitch b.rotation.yaw).z * s⟩
    ∧ (Direction.fromAngles b.rotation.pitch b.rotation.yaw).magnitude = 1 := by
  have habs : |Real.cos b.rotation.pitch| ≠ 0 := abs_ne_zero.mpr hc
  have h1 := Real.sin_sq_add_cos_sq b.rotation.yaw
  have hpos : (Body.moveRight b s).position
      = ⟨b.position.x
          + -(Real.cos b.rotation.pitch * Real.cos b.rotation.yaw)
            / |Real.cos b.rotation.pitch| * s,
         b.position.y,
         b.position.z
          + Real.cos b.rotation.pitch * Real.sin b.rotation.yaw
            / |Real.cos b.rotation.pitch| * s⟩ := by
    simp only [Body.moveRight, right_vector_normalized _ _ hc]
    simp
  refine ⟨?_, hpos, ?_, ?_, rfl, Direction.fromAngles_magnitude _ _⟩
  · rw [hpos]
  · rw [hpos]
    simp only [Point.distanceTo]
    rw [Real.sqrt_eq_iff_mul_self_eq
      (add_nonneg (add_nonneg (mul_self_nonneg _) (mul_self_nonneg _)) (mul_self_nonneg _))
      (abs_nonneg _), abs_mul_abs_self]
    have hA : (-(Real.cos b.rotation.pitch * Real.cos b.rotation.yaw)
          / |Real.cos b.rotation.pitch|)
          * (-(Real.cos b.rotation.pitch * Real.cos b.rotation.yaw)
          / |Real.cos b.rotation.pitch|)
        + (Real.cos b.rotation.pitch * Real.sin b.rotation.yaw / |Real.cos b.rotation.pitch|)
          * (Real.cos b.rotation.pitch * Real.sin b.rotation.yaw
          / |Real.cos b.rotation.pitch|) = 1 := by
      field_simp
      linear_combination (Real.cos b.rotation.pitch ^ 2) * h1
    linear_combination (s ^ 2) * hA
  · rw [hpos]
    simp only [Direction.fromAngles]
    field_simp
    ring

/-- Witness for `body_move_right_and_forward`: a default body (pitch 0, yaw 0, at the
origin) is moved by `moveRight(2)` to `(-2, 0, 0)`. -/
theorem body_move_right_and_forward_witness :
    Real.cos Element.ctor.rotation.pitch ≠ 0
    ∧ (Body.moveRight Element.ctor 2).position = ⟨-2, 0, 0⟩
    ∧ (Body.moveRight Element.ctor 2).position.distanceTo Element.ctor.position = |2| := by
  have hc : Real.cos Element.ctor.rotation.pitch ≠ 0 := by
    simp [Element.ctor, Element.ctorAt, Rotation.zero]
  have hw := body_move_right_and_forward Element.ctor 2 hc
  refine ⟨hc, ?_, hw.2.2.1⟩
  rw [hw.2.1]
  simp [Element.ctor, Element.ctorAt, Rotation.zero, Point.origin]

/-! ## Arithmetic of `float` at the ends of its range -/

theorem F32.roundHalfEven_of_small {x : ℝ} (h0 : 0 ≤ x) (h1 : x < 1 / 2) :
    F32.roundHalfEven x = 0 := by
  have hf : ⌊x⌋ = 0 := by
    rw [Int.floor_eq_iff]
    constructor
    · simpa using h0
    · have : x < 1 := by linarith
      simpa using this
  unfold F32.roundHalfEven
  rw [hf]
  simp only [Int.cast_zero, sub_zero]
  rw [if_pos h1]

theorem F32.roundHalfEven_intCast (n : ℤ) : F32.roundHalfEven (n : ℝ) = n := by
  unfold F32.roundHalfEven
  rw [Int.floor_intCast]
  simp

theorem F32.rnd_zero : F32.rnd 0 = F32.finite 0 := by
  have h : F32.roundHalfEven 0 = 0 := F32.roundHalfEven_of_small le_rfl (by norm_num)
  unfold F32.rnd
  simp only [zero_div, h, Int.cast_zero, zero_mul, abs_zero]
  rw [if_neg]
  exact not_le.mpr (by positivity)

theorem F32.ulpExp_zpow (z : ℤ) : F32.ulpExp ((2 : ℝ) ^ z) = max (z - 23) (-149) := by
  have hpos : (0 : ℝ) < (2 : ℝ) ^ z := by positivity
  have hlog : Int.log 2 ((2 : ℝ) ^ z) = z := by
    have := Int.log_zpow (R := ℝ) (b := 2) (by norm_num) z
    simpa using this
  unfold F32.ulpExp
  rw [abs_of_pos hpos, hlog]

/-- The product `2^-100 * 2^-100 = 2^-200` underflows to zero. -/
theorem F32.rnd_underflow : F32.rnd ((2 : ℝ) ^ (-200 : ℤ)) = F32.finite 0 := by
  have he : F32.ulpExp ((2 : ℝ) ^ (-200 : ℤ)) = -149 := by
    rw [F32.ulpExp_zpow]; decide
  have hq : (2 : ℝ) ^ (-200 : ℤ) / (2 : ℝ) ^ (-149 : ℤ) = (2 : ℝ) ^ (-51 : ℤ) := by
    rw [← zpow_sub₀ (two_ne_zero)]
    norm_num
  have hsmall : (2 : ℝ) ^ (-51 : ℤ) < 1 / 2 := by
    have h1 : (2 : ℝ) ^ (-51 : ℤ) < (2 : ℝ) ^ (-1 : ℤ) :=
      zpow_lt_zpow_right₀ (by norm_num) (by decide)
    have h2 : (2 : ℝ) ^ (-1 : ℤ) = 1 / 2 := by norm_num
    rw [h2] at h1
    exact h1
  have hr : F32.roundHalfEven ((2 : ℝ) ^ (-51 : ℤ)) = 0 :=
    F32.roundHalfEven_of_small (by positivity) hsmall
  unfold F32.rnd
  simp only [he, hq, hr, Int.cast_zero, zero_mul, abs_zero]
  rw [if_neg]
  exact not_le.mpr (by positivity)

/-- The product `2^100 * 2^100 = 2^200` overflows to `+inf`. -/
theorem F32.rnd_overflow : F32.rnd ((2 : ℝ) ^ (200 : ℤ)) = F32.inf false := by
  have he : F32.ulpExp ((2 : ℝ) ^ (200 : ℤ)) = 177 := by
    rw [F32.ulpExp_zpow]; decide
  have hq : (2 : ℝ) ^ (200 : ℤ) / (2 : ℝ) ^ (177 : ℤ) = (((2 : ℤ) ^ 23 : ℤ) : ℝ) := by
    rw [← zpow_sub₀ (two_ne_zero)]
    norm_num
  have hr : F32.roundHalfEven (((2 : ℤ) ^ 23 : ℤ) : ℝ) = (2 : ℤ) ^ 23 :=
    F32.roundHalfEven_intCast _
  have hy : ((((2 : ℤ) ^ 23 : ℤ)) : ℝ) * (2 : ℝ) ^ (177 : ℤ) = (2 : ℝ) ^ (200 : ℤ) := by
    have h23 : ((((2 : ℤ) ^ 23 : ℤ)) : ℝ) = (2 : ℝ) ^ (23 : ℤ) := by norm_num
    rw [h23, ← zpow_add₀ (two_ne_zero)]
    norm_num
  have hbig : (2 : ℝ) ^ (128 : ℤ) ≤ |(2 : ℝ) ^ (200 : ℤ)| := by
    rw [abs_of_pos (by positivity)]
    exact zpow_le_zpow_right₀ (by norm_num) (by decide)
  have hneg : ¬ ((2 : ℝ) ^ (200 : ℤ) < 0) := not_lt.mpr (by positivity)
  unfold F32.rnd
  simp only [he, hq, hr, hy]
  rw [if_pos hbig]
  simp [hneg]

theorem F32.isBinary32_zpow (e : ℤ) (h1 : -149 ≤ e) (h2 : e ≤ 104) :
    F32.IsBinary32 ((2 : ℝ) ^ e) :=
  ⟨1, e, by norm_num, h1, h2, by simp⟩

theorem F32.mul_zero_zero : F32.mul (F32.finite 0) (F32.finite 0) = F32.finite 0 := by
  show F32.rnd (0 * 0) = F32.finite 0
  rw [mul_zero, F32.rnd_zero]

theorem F32.add_zero_zero : F32.add (F32.finite 0) (F32.finite 0) = F32.finite 0 := by
  show F32.rnd (0 + 0) = F32.finite 0
  rw [add_zero, F32.rnd_zero]

theorem F32.sqrt_zero : F32.sqrt (F32.finite 0) = F32.finite 0 := by
  show (if (0 : ℝ) < 0 then F32.nan else F32.rnd (Real.sqrt 0)) = F32.finite 0
  rw [if_neg (lt_irrefl 0), Real.sqrt_zero, F32.rnd_zero]

theorem F32.isZero_zero : F32.isZero (F32.finite 0) = true := by
  show decide ((0 : ℝ) = 0) = true
  exact decide_eq_true rfl

theorem Binary32.magnitude_tiny :
    Binary32.Direction.magnitude
        ⟨F32.finite ((2 : ℝ) ^ (-100 : ℤ)), F32.finite 0, F32.finite 0⟩ = F32.finite 0 := by
  have hsq : (2 : ℝ) ^ (-100 : ℤ) * (2 : ℝ) ^ (-100 : ℤ) = (2 : ℝ) ^ (-200 : ℤ) := by
    rw [← zpow_add₀ (two_ne_zero)]
    norm_num
  have hm1 : F32.mul (F32.finite ((2 : ℝ) ^ (-100 : ℤ))) (F32.finite ((2 : ℝ) ^ (-100 : ℤ)))
      = F32.finite 0 := by
    show F32.rnd ((2 : ℝ) ^ (-100 : ℤ) * (2 : ℝ) ^ (-100 : ℤ)) = F32.finite 0
    rw [hsq, F32.rnd_underflow]
  show F32.sqrt (F32.add (F32.add
      (F32.mul (F32.finite ((2 : ℝ) ^ (-100 : ℤ))) (F32.finite ((2 : ℝ) ^ (-100 : ℤ))))
      (F32.mul (F32.finite 0) (F32.finite 0))) (F32.mul (F32.finite 0) (F32.finite 0)))
    = F32.finite 0
  rw [hm1, F32.mul_zero_zero, F32.add_zero_zero, F32.add_zero_zero, F32.sqrt_zero]

theorem Binary32.normalized_tiny :
    Binary32.Direction.normalized
        ⟨F32.finite ((2 : ℝ) ^ (-100 : ℤ)), F32.finite 0, F32.finite 0⟩
      = ⟨F32.finite 0, F32.finite 0, F32.finite 1⟩ := by
  unfold Binary32.Direction.normalized
  simp only [Binary32.magnitude_tiny, F32.isZero_zero, if_true]

theorem Binary32.magnitude_huge :
    Binary32.Direction.magnitude
        ⟨F32.finite ((2 : ℝ) ^ (100 : ℤ)), F32.finite 0, F32.finite 0⟩ = F32.inf false := by
  have hsq : (2 : ℝ) ^ (100 : ℤ) * (2 : ℝ) ^ (100 : ℤ) = (2 : ℝ) ^ (200 : ℤ) := by
    rw [← zpow_add₀ (two_ne_zero)]
    norm_num
  have hm1 : F32.mul (F32.finite ((2 : ℝ) ^ (100 : ℤ))) (F32.finite ((2 : ℝ) ^ (100 : ℤ)))
      = F32.inf false := by
    show F32.rnd ((2 : ℝ) ^ (100 : ℤ) * (2 : ℝ) ^ (100 : ℤ)) = F32.inf false
    rw [hsq, F32.rnd_overflow]
  show F32.sqrt (F32.add (F32.add
      (F32.mul (F32.finite ((2 : ℝ) ^ (100 : ℤ))) (F32.finite ((2 : ℝ) ^ (100 : ℤ))))
      (F32.mul (F32.finite 0) (F32.finite 0))) (F32.mul (F32.finite 0) (F32.finite 0)))
    = F32.inf false
  rw [hm1, F32.mul_zero_zero]
  rfl

theorem Binary32.normalized_huge :
    Binary32.Direction.normalized
        ⟨F32.finite ((2 : ℝ) ^ (100 : ℤ)), F32.finite 0, F32.finite 0⟩
      = ⟨F32.finite 0, F32.finite 0, F32.finite 0⟩ := by
  unfold Binary32.Direction.normalized
  simp only [Binary32.magnitude_huge]
  rfl

theorem Binary32.magnitude_zero :
    Binary32.Direction.magnitude ⟨F32.finite 0, F32.finite 0, F32.finite 0⟩ = F32.finite 0 := by
  show F32.sqrt (F32.add (F32.add (F32.mul (F32.finite 0) (F32.finite 0))
      (F32.mul (F32.finite 0) (F32.finite 0))) (F32.mul (F32.finite 0) (F32.finite 0)))
    = F32.finite 0
  rw [F32.mul_zero_zero, F32.add_zero_zero, F32.add_zero_zero, F32.sqrt_zero]

/-! ## `normalized` and the look direction over `float` -/

/-- C16 (counterexample): over `float`, the non-zero vector `(2^-100, 0, 0)` is
normalized to `(0, 0, 1)` and not to `v / |v| = (1, 0, 0)`, because its squared length
underflows to 0 and the guard `mag == 0` fires; and `(2^100, 0, 0)` is normalized to
`(0, 0, 0)`, of magnitude 0 and not 1, because its squared length overflows to `+inf`.
Both vectors are binary32 numbers. -/
theorem normalized_float_out_of_range :
    F32.IsBinary32 ((2 : ℝ) ^ (-100 : ℤ))
    ∧ (2 : ℝ) ^ (-100 : ℤ) ≠ 0
    ∧ Binary32.Direction.normalized
          ⟨F32.finite ((2 : ℝ) ^ (-100 : ℤ)), F32.finite 0, F32.finite 0⟩
        = ⟨F32.finite 0, F32.finite 0, F32.finite 1⟩
    ∧ Binary32.Direction.normalized
          ⟨F32.finite ((2 : ℝ) ^ (-100 : ℤ)), F32.finite 0, F32.finite 0⟩
        ≠ ⟨F32.finite 1, F32.finite 0, F32.finite 0⟩
    ∧ F32.IsBinary32 ((2 : ℝ) ^ (100 : ℤ))
    ∧ Binary32.Direction.normalized
          ⟨F32.finite ((2 : ℝ) ^ (100 : ℤ)), F32.finite 0, F32.finite 0⟩
        = ⟨F32.finite 0, F32.finite 0, F32.finite 0⟩
    ∧ (Binary32.Direction.normalized
          ⟨F32.finite ((2 : ℝ) ^ (100 : ℤ)), F32.finite 0, F32.finite 0⟩).magnitude
        = F32.finite 0
    ∧ F32.finite 0 ≠ F32.finite 1 := by
  have hne : F32.finite 0 ≠ F32.finite 1 := by
    intro hc
    have h01 : (0 : ℝ) = 1 := F32.finite.inj hc
    exact zero_ne_one h01
  refine ⟨F32.isBinary32_zpow _ (by decide) (by decide), by positivity,
    Binary32.normalized_tiny, ?_, F32.isBinary32_zpow _ (by decide) (by decide),
    Binary32.normalized_huge, ?_, hne⟩
  · rw [Binary32.normalized_tiny]
    intro hc
    exact hne (congrArg Binary32.Direction.x hc)
  · rw [Binary32.normalized_huge, Binary32.magnitude_zero]

/-- C15 (counterexample): over `float`, the default camera after
`lookAt(Direction(2^100, 0, 0))` is in a reachable state with no look-at target whose
look direction is `(0, 0, 0)`, of magnitude 0; its look point is the camera position
itself, at distance 0 and not 1 from the camera. -/
theorem lookAt_huge_direction_float :
    (Binary32.Camera.lookAt Binary32.Camera.ctor
        ⟨F32.finite ((2 : ℝ) ^ (100 : ℤ)), F32.finite 0, F32.finite 0⟩).isLookingAtElement
        = false
    ∧ (Binary32.Camera.lookAt Binary32.Camera.ctor
        ⟨F32.finite ((2 : ℝ) ^ (100 : ℤ)), F32.finite 0, F32.finite 0⟩).lookDirection
        = ⟨F32.finite 0, F32.finite 0, F32.finite 0⟩
    ∧ (Binary32.Camera.lookAt Binary32.Camera.ctor
        ⟨F32.finite ((2 : ℝ) ^ (100 : ℤ)), F32.finite 0, F32.finite 0⟩).lookDirection.magnitude
        = F32.finite 0
    ∧ Binary32.Camera.calculateLookPoint
        (fun _ => ⟨F32.finite 0, F32.finite 0, F32.finite 0⟩)
        (Binary32.Camera.lookAt Binary32.Camera.ctor
          ⟨F32.finite ((2 : ℝ) ^ (100 : ℤ)), F32.finite 0, F32.finite 0⟩)
        = (Binary32.Camera.lookAt Binary32.Camera.ctor
          ⟨F32.finite ((2 : ℝ) ^ (100 : ℤ)), F32.finite 0, F32.finite 0⟩).position := by
  have hdir : (Binary32.Camera.lookAt Binary32.Camera.ctor
      ⟨F32.finite ((2 : ℝ) ^ (100 : ℤ)), F32.finite 0, F32.finite 0⟩).lookDirection
      = ⟨F32.finite 0, F32.finite 0, F32.finite 0⟩ := Binary32.normalized_huge
  refine ⟨rfl, hdir, ?_, ?_⟩
  · rw [hdir, Binary32.magnitude_zero]
  · show Binary32.Point.mk
        (F32.add (F32.finite 0) (Binary32.Camera.lookAt Binary32.Camera.ctor
          ⟨F32.finite ((2 : ℝ) ^ (100 : ℤ)), F32.finite 0, F32.finite 0⟩).lookDirection.x)
        (F32.add (F32.finite 0) (Binary32.Camera.lookAt Binary32.Camera.ctor
          ⟨F32.finite ((2 : ℝ) ^ (100 : ℤ)), F32.finite 0, F32.finite 0⟩).lookDirection.y)
        (F32.add (F32.finite 0) (Binary32.Camera.lookAt Binary32.Camera.ctor
          ⟨F32.finite ((2 : ℝ) ^ (100 : ℤ)), F32.finite 0, F32.finite 0⟩).lookDirection.z)
      = ⟨F32.finite 0, F32.finite 0, F32.finite 0⟩
    rw [hdir]
    simp only [F32.add_zero_zero]

end

end Ocean
